import Mathlib

/-!
Verification of the MAHORAGA twitter-agent harvest core.

This file gives a shallow embedding of the content-harvest loop of
src/twitter-agent/src/agent.ts (class TwitterAutonomousAgent), of the
breaking-news classifier (checkBreakingNews) and of the HTTP front door
validation (the /twitter/search handler in the express server), and proves
or refutes the frozen claims about them.

Modelling conventions:
- JavaScript strings are Lean Strings; s.substring(0, n) / s.slice(0, n)
  is jsSlice, s.toLowerCase() is jsToLowerStr (Char.toLower per char),
  s.toUpperCase() is jsToUpperStr, s.trim() is jsTrim, a.includes(b) is
  containsSubstr.
- The browser session and the vision oracle are external collaborators; an
  Env record supplies the outcome of each call (indexed by a per-operation
  call counter).  Fallible browser commands (open, scroll, screenshot,
  snapshot) either succeed or raise; the vision wrapper (LLMVision) never
  raises, it returns a success flag, which Env models directly.
- Sequential JS control flow with exceptions is modelled by the monad
  AgentM, a state-and-exceptions monad over AgentSt; try/catch is
  tryCatchM.  Screenshot artifacts tracked for cleanup are the shots field
  (the screenshotPaths array); the ghost fields recorded / deleted log
  every path ever pushed resp. every path passed to unlink, to state the
  cleanup claims.
-/

/-! ### JS string primitives -/

/-- Whitespace as removed by the JS-string trim model. -/
def jsIsSpace (c : Char) : Bool :=
  c = ' ' || c = '\t' || c = '\r' || c = '\n'

/-- Model of JS String.prototype.trim: drop whitespace from both ends. -/
def jsTrim (s : String) : String :=
  ⟨((s.data.dropWhile jsIsSpace).reverse.dropWhile jsIsSpace).reverse⟩

/-- Model of s.substring(0, n) / s.slice(0, n): the first n characters. -/
def jsSlice (s : String) (n : Nat) : String :=
  ⟨s.data.take n⟩

/-- Model of JS String.prototype.toLowerCase (basic-latin case map). -/
def jsToLowerStr (s : String) : String :=
  ⟨s.data.map Char.toLower⟩

/-- Model of JS String.prototype.toUpperCase (basic-latin case map). -/
def jsToUpperStr (s : String) : String :=
  ⟨s.data.map Char.toUpper⟩

/-- Decidable check that needle occurs contiguously inside hay. -/
def listContainsSeq (hay needle : List Char) : Bool :=
  match hay with
  | [] => needle.isEmpty
  | _ :: rest => needle.isPrefixOf hay || listContainsSeq rest needle

/-- Model of JS String.prototype.includes. -/
def containsSubstr (hay needle : String) : Bool :=
  listContainsSeq hay.data needle.data

/-- Model of `x || d` on JS strings: falsy (empty) strings fall back to d. -/
def jsOrElse (s d : String) : String :=
  if s = "" then d else s

/-- Model of author.replace("@", ""): JS replace with a string pattern
removes only the first occurrence. -/
def removeFirstChar (c : Char) : List Char → List Char
  | [] => []
  | x :: xs => if x = c then xs else x :: removeFirstChar c xs

/-- The author post-processing tweet.author?.replace("@", "") || "unknown". -/
def jsAuthor (author : String) : String :=
  jsOrElse ⟨removeFirstChar '@' author.data⟩ "unknown"

/-! ### Data model (agent.ts interfaces) -/

/-- One candidate item as returned by a single oracle call
(extractTweetsFromScreenshot).  Missing JSON fields are modelled by the
falsy defaults the agent applies ("" resp. 0). -/
structure Candidate where
  text : String
  author : String
  created_at : String
  likes : Nat
  retweets : Nat
  deriving DecidableEq

/-- The Tweet interface of agent.ts. -/
structure Tweet where
  id : String
  text : String
  created_at : String
  author : String
  author_followers : Nat
  retweets : Nat
  likes : Nat
  deriving DecidableEq

/-- The BreakingNewsItem interface of agent.ts. -/
structure BreakingNewsItem where
  symbol : String
  headline : String
  author : String
  age_minutes : Int
  is_breaking : Bool
  deriving DecidableEq

/-- A labelled element of the structural browser snapshot
(browser-controller.ts SnapshotElement; only the fields the fallback
extraction reads). -/
structure SnapElement where
  tag : String
  text : String
  testid : Option String
  deriving DecidableEq

/-- A browser tab as listed by listTabs. -/
structure BrowserTab where
  id : Nat
  url : String
  title : String
  deriving DecidableEq

/-! ### Dedup tracker (agent.ts lines 233-252) -/

/-- The dedup key: first 150 characters of the text, lower-cased, trimmed
(agent.ts line 235: (tweet.text || "").substring(0, 150).toLowerCase().trim()). -/
def dedupKey (text : String) : String :=
  jsTrim (jsToLowerStr (jsSlice text 150))

/-- The dedup key of an already-transformed Tweet. -/
def tweetKey (t : Tweet) : String :=
  dedupKey t.text

/-- The inner for-loop over one oracle batch (agent.ts lines 233-252 and
324-331): a candidate is pushed when its key is truthy, longer than 10
characters and unseen; after a push that reaches maxResults the loop
breaks. -/
def addUniqueTweets (maxResults : Nat) :
    List Candidate → List Candidate → List String → List Candidate × List String
  | [], allTweets, seen => (allTweets, seen)
  | c :: rest, allTweets, seen =>
    let key := dedupKey c.text
    if key ≠ "" ∧ key.length > 10 ∧ key ∉ seen then
      let allTweets' := allTweets ++ [c]
      let seen' := seen ++ [key]
      if allTweets'.length ≥ maxResults then (allTweets', seen')
      else addUniqueTweets maxResults rest allTweets' seen'
    else addUniqueTweets maxResults rest allTweets seen

/-! ### Convergence tracker state and one loop iteration (agent.ts 196-308) -/

/-- The mutable state of the extraction loop. -/
structure HarvestLoopState where
  allTweets : List Candidate := []
  seen : List String := []
  scrollAttempts : Nat := 0
  consecutiveEmptyScreenshots : Nat := 0
  lastTweetCount : Nat := 0
  stuckCount : Nat := 0
  deriving DecidableEq

/-- What one iteration of the extraction loop observed: either the
screenshot call raised (caught at line 278), or the oracle call completed
with extraction.success && extraction.data?.tweets modelled as an
Option (List Candidate). -/
inductive IterOutcome where
  | screenshotFailed : IterOutcome
  | extracted : Option (List Candidate) → IterOutcome
  deriving DecidableEq

/-- The merge-and-count phase of one loop iteration (agent.ts lines
230-283): merge any returned candidates through the dedup tracker and
update consecutiveEmptyScreenshots / stuckCount / lastTweetCount exactly
as the source does in its three branches. -/
def mergeIteration (maxResults : Nat) (out : IterOutcome) (st : HarvestLoopState) :
    HarvestLoopState :=
  match out with
  | IterOutcome.extracted (some tweets) =>
    if tweets.length > 0 then
      let merged := addUniqueTweets maxResults tweets st.allTweets st.seen
      let newTweets := merged.1.length - st.allTweets.length
      if newTweets > 0 then
        { st with allTweets := merged.1, seen := merged.2,
                  consecutiveEmptyScreenshots := 0, stuckCount := 0,
                  lastTweetCount := merged.1.length }
      else
        { st with allTweets := merged.1, seen := merged.2,
                  consecutiveEmptyScreenshots := st.consecutiveEmptyScreenshots + 1,
                  stuckCount :=
                    if merged.1.length = st.lastTweetCount then st.stuckCount + 1 else 0,
                  lastTweetCount := merged.1.length }
    else
      { st with consecutiveEmptyScreenshots := st.consecutiveEmptyScreenshots + 1,
                stuckCount :=
                  if st.allTweets.length = st.lastTweetCount then st.stuckCount + 1
                  else st.stuckCount }
  | IterOutcome.extracted none =>
      { st with consecutiveEmptyScreenshots := st.consecutiveEmptyScreenshots + 1,
                stuckCount :=
                  if st.allTweets.length = st.lastTweetCount then st.stuckCount + 1
                  else st.stuckCount }
  | IterOutcome.screenshotFailed =>
      { st with consecutiveEmptyScreenshots := st.consecutiveEmptyScreenshots + 1,
                stuckCount := st.stuckCount + 1 }

/-- The recovery trigger (agent.ts line 286): stuckCount >= 3 ||
consecutiveEmptyScreenshots >= maxConsecutiveEmpty (which is 5). -/
def needsAggressiveRecovery (st : HarvestLoopState) : Bool :=
  st.stuckCount ≥ 3 || st.consecutiveEmptyScreenshots ≥ 5

/-- The counter reset performed right after the aggressive scroll
(agent.ts lines 291-292). -/
def applyAggressiveRecovery (st : HarvestLoopState) : HarvestLoopState :=
  if needsAggressiveRecovery st then
    { st with consecutiveEmptyScreenshots := 0, stuckCount := 0 }
  else st

/-! ### Helper lemmas about the dedup merge -/

/-- Unfolding equation for the nil case of the merge loop. -/
theorem addUniqueTweets_nil (maxResults : Nat) (allTweets : List Candidate)
    (seen : List String) :
    addUniqueTweets maxResults [] allTweets seen = (allTweets, seen) := rfl

/-- Unfolding equation for the cons case of the merge loop. -/
theorem addUniqueTweets_cons (maxResults : Nat) (c : Candidate)
    (rest : List Candidate) (allTweets : List Candidate) (seen : List String) :
    addUniqueTweets maxResults (c :: rest) allTweets seen =
      if dedupKey c.text ≠ "" ∧ (dedupKey c.text).length > 10 ∧
          dedupKey c.text ∉ seen then
        if (allTweets ++ [c]).length ≥ maxResults then
          (allTweets ++ [c], seen ++ [dedupKey c.text])
        else addUniqueTweets maxResults rest (allTweets ++ [c])
          (seen ++ [dedupKey c.text])
      else addUniqueTweets maxResults rest allTweets seen := rfl

/-- addUniqueTweets only ever appends: the accumulated items and keys are
extended, never rewritten. -/
theorem addUniqueTweets_extends (maxResults : Nat) :
    ∀ (cs : List Candidate) (allTweets : List Candidate) (seen : List String),
      ∃ extra keys,
        addUniqueTweets maxResults cs allTweets seen
          = (allTweets ++ extra, seen ++ keys) := by
  intro cs
  induction cs with
  | nil => intro allTweets seen; exact ⟨[], [], by simp [addUniqueTweets_nil]⟩
  | cons c rest ih =>
    intro allTweets seen
    rw [addUniqueTweets_cons]
    by_cases hc : dedupKey c.text ≠ "" ∧ (dedupKey c.text).length > 10 ∧
        dedupKey c.text ∉ seen
    · rw [if_pos hc]
      by_cases hfull : (allTweets ++ [c]).length ≥ maxResults
      · exact ⟨[c], [dedupKey c.text], by rw [if_pos hfull]⟩
      · rw [if_neg hfull]
        obtain ⟨extra, keys, h⟩ := ih (allTweets ++ [c]) (seen ++ [dedupKey c.text])
        exact ⟨[c] ++ extra, [dedupKey c.text] ++ keys, by simp [h]⟩
    · rw [if_neg hc]
      obtain ⟨extra, keys, h⟩ := ih allTweets seen
      exact ⟨extra, keys, h⟩

/-- The length of the accumulator never decreases through a merge. -/
theorem addUniqueTweets_length_le (maxResults : Nat) (cs : List Candidate)
    (allTweets : List Candidate) (seen : List String) :
    allTweets.length ≤ (addUniqueTweets maxResults cs allTweets seen).1.length := by
  obtain ⟨extra, keys, h⟩ := addUniqueTweets_extends maxResults cs allTweets seen
  simp [h]

/-- The key of a candidate, as a function for mapping. -/
def candKey (c : Candidate) : String :=
  dedupKey c.text

/-- Well-formedness of the dedup state that the merge loop maintains:
the seen set is exactly the list of keys of the accumulated items, has no
duplicates, and the accumulator respects the target bound. -/
theorem addUniqueTweets_wf (maxResults : Nat) :
    ∀ (cs : List Candidate) (allTweets : List Candidate) (seen : List String),
      seen = allTweets.map candKey → seen.Nodup → allTweets.length < maxResults →
      (addUniqueTweets maxResults cs allTweets seen).2
          = (addUniqueTweets maxResults cs allTweets seen).1.map candKey ∧
        (addUniqueTweets maxResults cs allTweets seen).2.Nodup ∧
        (addUniqueTweets maxResults cs allTweets seen).1.length ≤ maxResults := by
  intro cs
  induction cs with
  | nil =>
    intro allTweets seen hmap hnodup hlt
    rw [addUniqueTweets_nil]
    exact ⟨hmap, hnodup, Nat.le_of_lt hlt⟩
  | cons c rest ih =>
    intro allTweets seen hmap hnodup hlt
    rw [addUniqueTweets_cons]
    by_cases hc : dedupKey c.text ≠ "" ∧ (dedupKey c.text).length > 10 ∧
        dedupKey c.text ∉ seen
    · rw [if_pos hc]
      have hmap' : seen ++ [dedupKey c.text] = (allTweets ++ [c]).map candKey := by
        simp [hmap, candKey]
      have hnodup' : (seen ++ [dedupKey c.text]).Nodup := by
        simp only [List.nodup_append, List.nodup_cons, List.nodup_nil]
        refine ⟨hnodup, by simp, ?_⟩
        intro a ha hb
        simp only [List.mem_singleton] at hb
        exact hc.2.2 (hb ▸ ha)
      by_cases hfull : (allTweets ++ [c]).length ≥ maxResults
      · rw [if_pos hfull]
        refine ⟨hmap', hnodup', ?_⟩
        simp only [List.length_append, List.length_singleton]
        omega
      · rw [if_neg hfull]
        have hlt' : (allTweets ++ [c]).length < maxResults := by omega
        exact ih (allTweets ++ [c]) (seen ++ [dedupKey c.text]) hmap' hnodup' hlt'
    · rw [if_neg hc]
      exact ih allTweets seen hmap hnodup hlt

/-! ### Concrete fixtures used by witnesses and counterexamples -/

/-- A candidate with a long, substantial text (dedup key length 37). -/
def sampleCandidate : Candidate :=
  ⟨"Breaking market news about AAPL today", "FirstSquawk",
    "2026-01-01T00:00:00Z", 3, 1⟩

/-- A loop state that already holds sampleCandidate. -/
def stuckSt : HarvestLoopState :=
  { allTweets := [sampleCandidate], seen := [dedupKey sampleCandidate.text],
    scrollAttempts := 1, consecutiveEmptyScreenshots := 0,
    lastTweetCount := 1, stuckCount := 0 }

/-- A loop state close to both recovery thresholds. -/
def recoverySt : HarvestLoopState :=
  { allTweets := [], seen := [], scrollAttempts := 4,
    consecutiveEmptyScreenshots := 4, lastTweetCount := 0, stuckCount := 2 }

/-! ### C6: acceptance condition of the dedup tracker -/

/-- C6: a candidate is accepted (appended together with its key) exactly
when its dedup key (first 150 characters, lower-cased, trimmed) has length
at least 11 and is not yet in seen; otherwise the state is unchanged; and
of two candidates with the same key processed in one batch, only the first
is retained, the later one is dropped, never merged. -/
theorem candidate_accepted_iff (maxResults : Nat) (allTweets : List Candidate)
    (seen : List String) (c c2 : Candidate) :
    (addUniqueTweets maxResults [c] allTweets seen
        = (allTweets ++ [c], seen ++ [dedupKey c.text])
      ↔ 11 ≤ (dedupKey c.text).length ∧ dedupKey c.text ∉ seen)
    ∧ (¬ (11 ≤ (dedupKey c.text).length ∧ dedupKey c.text ∉ seen) →
        addUniqueTweets maxResults [c] allTweets seen = (allTweets, seen))
    ∧ (dedupKey c2.text = dedupKey c.text →
        (addUniqueTweets maxResults [c, c2] allTweets seen).1
          = (addUniqueTweets maxResults [c] allTweets seen).1) := by
  have hiff : (dedupKey c.text ≠ "" ∧ (dedupKey c.text).length > 10 ∧
        dedupKey c.text ∉ seen)
      ↔ (11 ≤ (dedupKey c.text).length ∧ dedupKey c.text ∉ seen) := by
    constructor
    · rintro ⟨-, h1, h2⟩; exact ⟨h1, h2⟩
    · rintro ⟨h1, h2⟩
      refine ⟨?_, h1, h2⟩
      intro he
      rw [he] at h1
      exact absurd h1 (by decide)
  refine ⟨⟨?_, ?_⟩, ?_, ?_⟩
  · intro h
    by_cases hc : dedupKey c.text ≠ "" ∧ (dedupKey c.text).length > 10 ∧
        dedupKey c.text ∉ seen
    · exact hiff.mp hc
    · rw [addUniqueTweets_cons, if_neg hc, addUniqueTweets_nil] at h
      have := congrArg (fun p => p.1.length) h
      simp at this
  · intro h
    have hc := hiff.mpr h
    rw [addUniqueTweets_cons, if_pos hc]
    by_cases hfull : (allTweets ++ [c]).length ≥ maxResults
    · rw [if_pos hfull]
    · rw [if_neg hfull, addUniqueTweets_nil]
  · intro h
    have hc : ¬ (dedupKey c.text ≠ "" ∧ (dedupKey c.text).length > 10 ∧
        dedupKey c.text ∉ seen) := fun hcc => h (hiff.mp hcc)
    rw [addUniqueTweets_cons, if_neg hc, addUniqueTweets_nil]
  · intro hk
    simp only [addUniqueTweets_cons, addUniqueTweets_nil]
    by_cases hc : dedupKey c.text ≠ "" ∧ (dedupKey c.text).length > 10 ∧
        dedupKey c.text ∉ seen
    · have hc2 : ¬ (dedupKey c2.text ≠ "" ∧ (dedupKey c2.text).length > 10 ∧
          dedupKey c2.text ∉ seen ++ [dedupKey c.text]) := by
        rw [hk]
        rintro ⟨-, -, h3⟩
        exact h3 (by simp)
      simp only [if_pos hc, if_neg hc2]
    · have hc2 : ¬ (dedupKey c2.text ≠ "" ∧ (dedupKey c2.text).length > 10 ∧
          dedupKey c2.text ∉ seen) := by
        rw [hk]; exact hc
      simp only [if_neg hc, if_neg hc2]

/-- Witness for C6: a concrete fresh, long-keyed candidate is accepted. -/
theorem candidate_accepted_iff_witness :
    addUniqueTweets 5 [sampleCandidate] [] []
      = ([] ++ [sampleCandidate], [] ++ [dedupKey sampleCandidate.text]) :=
  (candidate_accepted_iff 5 [] [] sampleCandidate sampleCandidate).1.mpr
    ⟨by decide, by decide⟩

/-! ### C4: counter updates of one extraction-loop iteration -/

/-- C4 (amended): when the recorded lastTweetCount agrees with the item
count (which every reachable iteration start satisfies), one
merge-and-count step increments consecutiveEmptyScreenshots and stuckCount
exactly when the iteration accepted zero new items - also when the oracle
returned candidates that were all duplicates or too short, and on a failed
screenshot - and resets both to zero when at least one new item was
accepted. -/
theorem counter_updates_on_growth (maxResults : Nat) (out : IterOutcome)
    (st : HarvestLoopState) (hsync : st.lastTweetCount = st.allTweets.length) :
    ((mergeIteration maxResults out st).allTweets.length > st.allTweets.length →
        (mergeIteration maxResults out st).consecutiveEmptyScreenshots = 0 ∧
        (mergeIteration maxResults out st).stuckCount = 0) ∧
    ((mergeIteration maxResults out st).allTweets.length = st.allTweets.length →
        (mergeIteration maxResults out st).consecutiveEmptyScreenshots
            = st.consecutiveEmptyScreenshots + 1 ∧
        (mergeIteration maxResults out st).stuckCount = st.stuckCount + 1) := by
  cases out with
  | screenshotFailed =>
    refine ⟨fun h => absurd h (by simp [mergeIteration]), fun _ => ⟨rfl, rfl⟩⟩
  | extracted r =>
    cases r with
    | none =>
      refine ⟨fun h => absurd h (by simp [mergeIteration]), fun _ => ⟨rfl, ?_⟩⟩
      simp only [mergeIteration]
      rw [if_pos hsync.symm]
    | some ts =>
      by_cases hts : ts.length > 0
      · obtain ⟨extra, keys, hm⟩ :=
          addUniqueTweets_extends maxResults ts st.allTweets st.seen
        by_cases hnew :
            (addUniqueTweets maxResults ts st.allTweets st.seen).1.length
              - st.allTweets.length > 0
        · have hres : mergeIteration maxResults (IterOutcome.extracted (some ts)) st
              = { st with
                    allTweets := (addUniqueTweets maxResults ts st.allTweets st.seen).1,
                    seen := (addUniqueTweets maxResults ts st.allTweets st.seen).2,
                    consecutiveEmptyScreenshots := 0, stuckCount := 0,
                    lastTweetCount :=
                      (addUniqueTweets maxResults ts st.allTweets st.seen).1.length } := by
            simp only [mergeIteration]
            rw [if_pos hts, if_pos hnew]
          refine ⟨fun _ => by rw [hres]; exact ⟨rfl, rfl⟩, fun hEq => ?_⟩
          rw [hres] at hEq
          simp only at hEq
          omega
        · have hres : mergeIteration maxResults (IterOutcome.extracted (some ts)) st
              = { st with
                    allTweets := (addUniqueTweets maxResults ts st.allTweets st.seen).1,
                    seen := (addUniqueTweets maxResults ts st.allTweets st.seen).2,
                    consecutiveEmptyScreenshots := st.consecutiveEmptyScreenshots + 1,
                    stuckCount :=
                      if (addUniqueTweets maxResults ts st.allTweets st.seen).1.length
                          = st.lastTweetCount
                      then st.stuckCount + 1 else 0,
                    lastTweetCount :=
                      (addUniqueTweets maxResults ts st.allTweets st.seen).1.length } := by
            simp only [mergeIteration]
            rw [if_pos hts, if_neg hnew]
          have hlen : (addUniqueTweets maxResults ts st.allTweets st.seen).1.length
              = st.allTweets.length := by
            have := addUniqueTweets_length_le maxResults ts st.allTweets st.seen
            omega
          refine ⟨fun hGt => ?_, fun _ => ?_⟩
          · rw [hres] at hGt
            simp only at hGt
            omega
          · rw [hres]
            refine ⟨rfl, ?_⟩
            simp only
            rw [if_pos (by omega)]
      · have hres : mergeIteration maxResults (IterOutcome.extracted (some ts)) st
            = { st with
                  consecutiveEmptyScreenshots := st.consecutiveEmptyScreenshots + 1,
                  stuckCount :=
                    if st.allTweets.length = st.lastTweetCount then st.stuckCount + 1
                    else st.stuckCount } := by
          simp only [mergeIteration]
          rw [if_neg hts]
        refine ⟨fun hGt => ?_, fun _ => ?_⟩
        · rw [hres] at hGt
          simp only at hGt
          omega
        · rw [hres]
          exact ⟨rfl, by simp only; rw [if_pos hsync.symm]⟩

/-- Counterexample to C4 as stated: here the oracle call returned one
candidate (not zero), which was a duplicate of an item already held;
consecutiveEmptyScreenshots is nevertheless incremented. -/
theorem consecutiveEmpty_increments_on_duplicates :
    (mergeIteration 5 (IterOutcome.extracted (some [sampleCandidate]))
        stuckSt).consecutiveEmptyScreenshots
      = stuckSt.consecutiveEmptyScreenshots + 1
    ∧ [sampleCandidate].length ≠ 0 := by decide

/-- Witness for C4 (amended): a genuinely new item resets both counters. -/
theorem counter_updates_on_growth_witness :
    (mergeIteration 5 (IterOutcome.extracted (some [sampleCandidate]))
        { }).consecutiveEmptyScreenshots = 0 ∧
    (mergeIteration 5 (IterOutcome.extracted (some [sampleCandidate]))
        { }).stuckCount = 0 :=
  (counter_updates_on_growth 5 (IterOutcome.extracted (some [sampleCandidate]))
    { } rfl).1 (by decide)

/-! ### C5: the aggressive-recovery trigger -/

/-- C5: right after the merge-and-count phase of an iteration - the
decision point of agent.ts line 286 - aggressive recovery fires exactly
when stuckCount has reached 3 or consecutiveEmptyScreenshots has reached
5, and applying it resets both counters to zero; when the threshold is
not met the state is untouched. -/
theorem aggressive_recovery_iff (maxResults : Nat) (out : IterOutcome)
    (st : HarvestLoopState) :
    (needsAggressiveRecovery (mergeIteration maxResults out st) = true
      ↔ 3 ≤ (mergeIteration maxResults out st).stuckCount
        ∨ 5 ≤ (mergeIteration maxResults out st).consecutiveEmptyScreenshots)
    ∧ (needsAggressiveRecovery (mergeIteration maxResults out st) = true →
        (applyAggressiveRecovery (mergeIteration maxResults out st)).stuckCount = 0
        ∧ (applyAggressiveRecovery
            (mergeIteration maxResults out st)).consecutiveEmptyScreenshots = 0)
    ∧ (needsAggressiveRecovery (mergeIteration maxResults out st) = false →
        applyAggressiveRecovery (mergeIteration maxResults out st)
          = mergeIteration maxResults out st) := by
  refine ⟨?_, ?_, ?_⟩
  · simp [needsAggressiveRecovery]
  · intro h
    simp [applyAggressiveRecovery, h]
  · intro h
    simp [applyAggressiveRecovery, h]

/-- Witness for C5: from a state with stuckCount 2 and four empty
screenshots, one more empty iteration crosses the threshold and the
recovery resets both counters. -/
theorem aggressive_recovery_iff_witness :
    (applyAggressiveRecovery
        (mergeIteration 5 (IterOutcome.extracted none) recoverySt)).stuckCount = 0
    ∧ (applyAggressiveRecovery
        (mergeIteration 5 (IterOutcome.extracted none)
          recoverySt)).consecutiveEmptyScreenshots = 0 :=
  (aggressive_recovery_iff 5 (IterOutcome.extracted none) recoverySt).2.1 (by decide)

/-! ### The collaborator environment and the agent monad -/

/-- Outcome of one browser.screenshot() call: it either raises, or
succeeds returning a file path that is pushed for cleanup when truthy
(agent.ts pattern: if (screenshotResult.path) this.screenshotPaths.push). -/
inductive ShotRes where
  | crash : ShotRes
  | ok : Option String → ShotRes
  deriving DecidableEq

/-- The external world: per-call outcomes of every browser and oracle
operation, indexed by a per-operation call counter, plus the clock.  The
oracle responses model extraction.success && extraction.data?.tweets as an
Option (List Candidate); LLMVision never raises (it catches internally and
returns a success flag). -/
structure Env where
  connected : Bool
  listTabs : Option (List BrowserTab)
  switchOk : Bool
  currentUrl : Option String
  openAt : Nat → Bool
  shotAt : Nat → ShotRes
  verifyAt : Nat → Bool
  extractAt : Nat → Option (List Candidate)
  scrollAt : Nat → Bool
  snapshotRes : Option (List SnapElement)
  nowMs : Nat
  nowIso : String
  parseDate : String → Int
  encode : String → String

/-- The per-call mutable agent state: call counters for each collaborator
operation, the tracked screenshotPaths array (shots), and two ghost logs:
every path ever pushed (recorded) and every path handed to unlink
(deleted). -/
structure AgentSt where
  openIdx : Nat := 0
  shotIdx : Nat := 0
  verifyIdx : Nat := 0
  extractIdx : Nat := 0
  scrollIdx : Nat := 0
  shots : List String := []
  recorded : List String := []
  deleted : List String := []
  deriving DecidableEq

/-- Sequential JS control flow with exceptions: state passing plus an
Except result.  An error value models a raised JS exception. -/
def AgentM (α : Type) := AgentSt → Except Unit α × AgentSt

/-- Return a value, leaving the state untouched. -/
def pureM {α : Type} (a : α) : AgentM α := fun s => (Except.ok a, s)

/-- Sequencing: a raised exception short-circuits the continuation. -/
def bindM {α β : Type} (x : AgentM α) (f : α → AgentM β) : AgentM β := fun s =>
  match x s with
  | (Except.ok a, s1) => f a s1
  | (Except.error e, s1) => (Except.error e, s1)

instance : Monad AgentM where
  pure := pureM
  bind := bindM

/-- A raised JS exception. -/
def throwJs {α : Type} : AgentM α := fun s => (Except.error (), s)

/-- Model of a JS try/catch block. -/
def tryCatchM {α : Type} (body handler : AgentM α) : AgentM α := fun s =>
  match body s with
  | (Except.ok a, s1) => (Except.ok a, s1)
  | (Except.error _, s1) => handler s1

/-- browser.open: navigation, may raise.  The navigation target does not
influence the environment-scripted outcomes. -/
def openUrl (env : Env) (_url : String) : AgentM Unit := fun s =>
  ((if env.openAt s.openIdx then Except.ok () else Except.error ()),
    { s with openIdx := s.openIdx + 1 })

/-- browser.screenshot plus the caller-side push of the returned path
(agent.ts pushes the path only when it is truthy). -/
def takeScreenshot (env : Env) : AgentM Unit := fun s =>
  match env.shotAt s.shotIdx with
  | ShotRes.crash => (Except.error (), { s with shotIdx := s.shotIdx + 1 })
  | ShotRes.ok none => (Except.ok (), { s with shotIdx := s.shotIdx + 1 })
  | ShotRes.ok (some p) =>
    (Except.ok (),
      { s with
          shotIdx := s.shotIdx + 1,
          shots := s.shots ++ [p],
          recorded := s.recorded ++ [p] })

/-- llm.verifySearchResults: never raises; the Bool combines
verify.success && verify.data?.results_loaded. -/
def verifyResultsM (env : Env) : AgentM Bool := fun s =>
  (Except.ok (env.verifyAt s.verifyIdx), { s with verifyIdx := s.verifyIdx + 1 })

/-- llm.extractTweetsFromScreenshot: never raises; some tweets models
extraction.success && extraction.data?.tweets. -/
def extractFromScreenshot (env : Env) : AgentM (Option (List Candidate)) := fun s =>
  (Except.ok (env.extractAt s.extractIdx), { s with extractIdx := s.extractIdx + 1 })

/-- browser.scroll: may raise (browser-controller.ts rethrows). -/
def scrollPage (env : Env) : AgentM Unit := fun s =>
  ((if env.scrollAt s.scrollIdx then Except.ok () else Except.error ()),
    { s with scrollIdx := s.scrollIdx + 1 })

/-- browser.snapshot: may raise. -/
def snapshotPage (env : Env) : AgentM (List SnapElement) := fun s =>
  match env.snapshotRes with
  | none => (Except.error (), s)
  | some els => (Except.ok els, s)

/-- browser.switchTab: may raise. -/
def switchTabM (env : Env) : AgentM Unit := fun s =>
  ((if env.switchOk then Except.ok () else Except.error ()), s)

/-- browser.getCurrentUrl: may raise. -/
def getCurrentUrlM (env : Env) : AgentM String := fun s =>
  match env.currentUrl with
  | none => (Except.error (), s)
  | some u => (Except.ok u, s)

/-- browser.listTabs: may raise. -/
def listTabsM (env : Env) : AgentM (List BrowserTab) := fun s =>
  (match env.listTabs with
  | none => (Except.error (), s)
  | some tabs => (Except.ok tabs, s))

/-- cleanupScreenshots (agent.ts lines 433-452): unlink every tracked
path (errors per file are ignored), then clear the array; the extra
pattern-sweep in browser.cleanupScreenshots never raises. -/
def cleanupScreenshotsM : AgentM Unit := fun s =>
  (Except.ok (), { s with deleted := s.deleted ++ s.shots, shots := [] })

/-! ### init (agent.ts lines 40-102) -/

/-- The init sequence run by searchTwitter when the agent is not yet
initialized: connectivity check (raises when Chrome is unreachable), tab
adoption inside a try whose catch falls back to a direct open (which may
itself raise), one screenshot, then the authentication probe whose result
is only logged. -/
def initAgent (env : Env) : AgentM Unit := do
  if env.connected then
    tryCatchM
      (do
        let tabs ← listTabsM env
        match tabs.find? (fun tab =>
            containsSubstr tab.url "twitter.com" ||
            containsSubstr tab.url "x.com") with
        | some _twitterTab => do
          switchTabM env
          let currentUrl ← getCurrentUrlM env
          if ¬ containsSubstr currentUrl "/home" = true then
            openUrl env "https://twitter.com/home"
        | none => openUrl env "https://twitter.com/home")
      (openUrl env "https://twitter.com/home")
    takeScreenshot env
    pure ()
  else
    throwJs

/-! ### The searchTwitter phases (agent.ts lines 107-428) -/

/-- The verify-results polling loop (agent.ts lines 136-152): up to 8
verify attempts; between attempts (except after the last) a fresh
screenshot is taken.  The argument counts remaining attempts. -/
def verifyLoop (env : Env) : Nat → AgentM Unit
  | 0 => pure ()
  | n + 1 => do
    let verify ← verifyResultsM env
    if verify then
      pure ()
    else do
      if n > 0 then takeScreenshot env else pure ()
      verifyLoop env n

/-- A fixed number of scroll commands in sequence (prefetch and
reset-to-top phases, agent.ts lines 162-175). -/
def repeatScroll (env : Env) : Nat → AgentM Unit
  | 0 => pure ()
  | n + 1 => do
    scrollPage env
    repeatScroll env n

/-- The screenshot-and-extract prefix of one loop iteration inside its
try block (agent.ts lines 211-228): only the screenshot can raise and the
catch turns that into the screenshotFailed outcome. -/
def fetchIteration (env : Env) : AgentM IterOutcome :=
  tryCatchM
    (do
      takeScreenshot env
      let extraction ← extractFromScreenshot env
      pure (IterOutcome.extracted extraction))
    (pure IterOutcome.screenshotFailed)

/-- The extraction loop (agent.ts lines 208-308): while fewer than
maxResults items are held and fewer than 50 scroll attempts were made,
run one fetch-merge-recover iteration and scroll on.  Every continuing
iteration increments scrollAttempts, so fuel 51 is never exhausted. -/
def extractionLoop (env : Env) (maxResults : Nat) :
    Nat → HarvestLoopState → AgentM HarvestLoopState
  | 0, st => pure st
  | fuel + 1, st =>
    if st.allTweets.length < maxResults ∧ st.scrollAttempts < 50 then do
      let out ← fetchIteration env
      let st1 := mergeIteration maxResults out st
      let st2 ←
        if needsAggressiveRecovery st1 then do
          scrollPage env
          pure (applyAggressiveRecovery st1)
        else pure st1
      if st2.allTweets.length < maxResults then do
        scrollPage env
        extractionLoop env maxResults fuel
          { st2 with scrollAttempts := st2.scrollAttempts + 1 }
      else pure st2
    else pure st

/-- The re-scan retries (agent.ts lines 317-339): up to 3 extra
screenshot-extract passes, merging through the same dedup tracker. -/
def rescanLoop (env : Env) (maxResults : Nat) :
    Nat → HarvestLoopState → AgentM HarvestLoopState
  | 0, st => pure st
  | n + 1, st =>
    if st.allTweets.length < maxResults then do
      takeScreenshot env
      let retryExtraction ← extractFromScreenshot env
      let st1 :=
        match retryExtraction with
        | some tweets =>
          let merged := addUniqueTweets maxResults tweets st.allTweets st.seen
          { st with allTweets := merged.1, seen := merged.2 }
        | none => st
      if st1.allTweets.length < maxResults then do
        scrollPage env
        rescanLoop env maxResults n st1
      else pure st1
    else pure st

/-- The Tweet transform applied to accepted candidates (agent.ts lines
394-404 and 359-369): synthetic browser_ id from the clock and the index,
falsy-field defaults for created_at and author. -/
def toTweetAux (env : Env) : Nat → List Candidate → List Tweet
  | _, [] => []
  | i, c :: rest =>
    { id := "browser_" ++ toString env.nowMs ++ "_" ++ toString i,
      text := c.text,
      created_at := jsOrElse c.created_at env.nowIso,
      author := jsAuthor c.author,
      author_followers := 0,
      retweets := c.retweets,
      likes := c.likes } :: toTweetAux env (i + 1) rest

/-- Candidate-to-Tweet mapping starting at index 0. -/
def toTweets (env : Env) (cs : List Candidate) : List Tweet :=
  toTweetAux env 0 cs

/-- The deterministic fallback transform (agent.ts lines 467-478). -/
def fallbackTweetAux (env : Env) : Nat → List SnapElement → List Tweet
  | _, [] => []
  | i, el :: rest =>
    { id := "fallback_" ++ toString env.nowMs ++ "_" ++ toString i,
      text := el.text,
      created_at := env.nowIso,
      author := "unknown",
      author_followers := 0,
      retweets := 0,
      likes := 0 } :: fallbackTweetAux env (i + 1) rest

/-- extractTweetsFallback (agent.ts lines 457-484): structural snapshot,
keep article-tagged or tweet-testid elements, emit at most maxResults
synthetic tweets; any raise is swallowed into an empty result. -/
def extractTweetsFallback (env : Env) (maxResults : Nat) : AgentM (List Tweet) :=
  tryCatchM
    (do
      let snap ← snapshotPage env
      let tweetElements := snap.filter (fun el =>
        el.tag == "article" || el.testid == some "tweet")
      pure (fallbackTweetAux env 0
        (tweetElements.take (min tweetElements.length maxResults))))
    (pure [])

/-- The zero-item tail of searchTwitter (agent.ts lines 349-391): one
final oracle extraction; on success its tweets are returned untouched by
the dedup tracker; otherwise the deterministic fallback runs; cleanup is
performed before every return. -/
def finalExtractionPath (env : Env) (maxResults : Nat) : AgentM (List Tweet) := do
  takeScreenshot env
  let finalExtraction ← extractFromScreenshot env
  match finalExtraction with
  | some tweets =>
    if tweets.length > 0 then do
      let result := toTweets env (tweets.take maxResults)
      cleanupScreenshotsM
      pure result
    else do
      let fallbackTweets ← extractTweetsFallback env maxResults
      cleanupScreenshotsM
      if fallbackTweets.length > 0 then pure fallbackTweets else pure []
  | none => do
    let fallbackTweets ← extractTweetsFallback env maxResults
    cleanupScreenshotsM
    if fallbackTweets.length > 0 then pure fallbackTweets else pure []

/-- The pre-extraction double verification (agent.ts lines 183-194): when
the first check fails, wait, take another screenshot and check once more,
logging but not acting on the second result. -/
def preVerify (env : Env) (verifyCheck : Bool) : AgentM Unit :=
  if ¬ verifyCheck = true then do
    takeScreenshot env
    let _secondCheck ← verifyResultsM env
    pure ()
  else pure ()

/-- The conditional re-scan entry (agent.ts lines 311-315): scroll back
up and run the re-scan passes when the loop fell short; by construction
the loop only exits short once scrollAttempts reached 50, so this phase
is dead in practice, but it is kept faithful to the source. -/
def rescanPhase (env : Env) (maxResults : Nat) (loopSt : HarvestLoopState) :
    AgentM HarvestLoopState :=
  if loopSt.allTweets.length < maxResults ∧ loopSt.scrollAttempts < 50 then do
    scrollPage env
    rescanLoop env maxResults 3 loopSt
  else pure loopSt

/-- The body of the big try block of searchTwitter (agent.ts lines
112-414): navigate, poll for loaded results, prefetch scrolls, reset to
top, pre-extraction verification, extraction loop, re-scan, cleanup,
then either the zero-item tail or the normal slice-and-map return. -/
def searchBody (env : Env) (query : String) (maxResults : Nat) :
    AgentM (List Tweet) := do
  openUrl env ("https://twitter.com/search?q=" ++ env.encode query)
  takeScreenshot env
  verifyLoop env 8
  repeatScroll env (Nat.max 5 ((maxResults + 1) / 2))
  repeatScroll env 10
  takeScreenshot env
  let verifyCheck ← verifyResultsM env
  preVerify env verifyCheck
  let loopSt ← extractionLoop env maxResults 51 { }
  let rescanSt ← rescanPhase env maxResults loopSt
  let uniqueTweets := rescanSt.allTweets.take maxResults
  cleanupScreenshotsM
  if uniqueTweets.length = 0 then
    finalExtractionPath env maxResults
  else do
    let result := toTweets env (uniqueTweets.take maxResults)
    cleanupScreenshotsM
    pure result

/-- The initialize-on-demand prefix of searchTwitter (agent.ts lines
108-110). -/
def maybeInit (env : Env) (initialized : Bool) : AgentM Unit :=
  if ¬ initialized = true then initAgent env else pure ()

/-- searchTwitter (agent.ts lines 107-428): run init when needed (raises
propagate), then the big try whose catch cleans up and falls back to the
deterministic extraction, itself guarded so the call returns normally. -/
def searchTwitterAgent (env : Env) (initialized : Bool) (query : String)
    (maxResults : Nat) : AgentM (List Tweet) := do
  maybeInit env initialized
  tryCatchM (searchBody env query maxResults)
    (do
      cleanupScreenshotsM
      tryCatchM (extractTweetsFallback env maxResults) (pure []))

/-- One call to searchTwitter on a fresh per-call state. -/
def searchTwitterCall (env : Env) (initialized : Bool) (query : String)
    (maxResults : Nat) : Except Unit (List Tweet) × AgentSt :=
  searchTwitterAgent env initialized query maxResults { }

/-! ### Breaking-news classifier (agent.ts lines 489-533) -/

/-- The fixed allow-list test (agent.ts lines 515-518):
author.toLowerCase() must contain one of the three source accounts. -/
def isNewsAccount (author : String) : Bool :=
  containsSubstr (jsToLowerStr author) "firstsquawk" ||
  containsSubstr (jsToLowerStr author) "deitaone" ||
  containsSubstr (jsToLowerStr author) "newsquawk"

/-- The symbol-mention test (agent.ts lines 508-511): the first requested
symbol such that the upper-cased tweet text contains the $SYMBOL cashtag
or the space-delimited SYMBOL token; the symbol itself is compared
verbatim. -/
def newsSymbolMatch (toCheck : List String) (text : String) : Option String :=
  toCheck.find? (fun sym =>
    containsSubstr (jsToUpperStr text) ("$" ++ sym) ||
    containsSubstr (jsToUpperStr text) (" " ++ sym ++ " "))

/-- Math.round(a / b) on exact integer inputs with b positive:
floor(a / b + 1 / 2). -/
def jsMathRoundDiv (a b : Int) : Int :=
  Int.fdiv (2 * a + b) (2 * b)

/-- MAX_NEWS_AGE_MS (30 minutes). -/
def maxNewsAgeMs : Int := 1800000

/-- BREAKING_THRESHOLD_MS (10 minutes). -/
def breakingThresholdMs : Int := 600000

/-- One pass of the classification loop body over a single harvested
tweet (agent.ts lines 504-530). -/
def classifyNewsItem (toCheck : List String) (now : Int)
    (parseDate : String → Int) (tweet : Tweet) : Option BreakingNewsItem :=
  let tweetAge : Int := now - parseDate tweet.created_at
  if tweetAge > maxNewsAgeMs then none
  else
    match newsSymbolMatch toCheck tweet.text with
    | none => none
    | some mentionedSymbol =>
      if isNewsAccount tweet.author then
        some { symbol := mentionedSymbol,
               headline := jsSlice tweet.text 200,
               author := tweet.author,
               age_minutes := jsMathRoundDiv tweetAge 60000,
               is_breaking := decide (tweetAge < breakingThresholdMs) }
      else none

/-- The classification loop (agent.ts lines 500-530): fold over the
harvested tweets, pushing at most one BreakingNewsItem per tweet. -/
def classifyNews (toCheck : List String) (tweets : List Tweet) (now : Int)
    (parseDate : String → Int) : List BreakingNewsItem :=
  tweets.foldl (fun results tweet =>
    match classifyNewsItem toCheck now parseDate tweet with
    | some item => results ++ [item]
    | none => results) []

/-- The OR-query built over the (at most 3) symbols, restricted to the
allow-listed accounts and excluding retweets (agent.ts lines 495-496). -/
def buildNewsQuery (toCheck : List String) : String :=
  "(" ++ String.intercalate " OR " (toCheck.map (fun s => "$" ++ s)) ++
    ") (from:FirstSquawk OR from:DeItaone OR from:Newsquawk) -is:retweet"

/-- checkBreakingNews (agent.ts lines 489-533): empty symbol list short
circuits; otherwise harvest with targetCount 5 over the news query for
the first 3 symbols, then classify. -/
def checkBreakingNewsAgent (env : Env) (initialized : Bool)
    (symbols : List String) : AgentM (List BreakingNewsItem) := do
  if symbols.length = 0 then
    pure []
  else do
    let toCheck := symbols.take 3
    let tweets ← searchTwitterAgent env initialized (buildNewsQuery toCheck) 5
    pure (classifyNews toCheck tweets (env.nowMs : Int) env.parseDate)

/-- One call to checkBreakingNews on a fresh per-call state. -/
def checkBreakingNewsCall (env : Env) (initialized : Bool)
    (symbols : List String) : Except Unit (List BreakingNewsItem) × AgentSt :=
  checkBreakingNewsAgent env initialized symbols { }

/-! ### The /twitter/search front door (server, part_006 lines 84-103) -/

/-- A JSON value of a request body field, as far as the handler
distinguishes them. -/
inductive JSVal where
  | undef : JSVal
  | nullv : JSVal
  | boolean : Bool → JSVal
  | num : Int → JSVal
  | str : String → JSVal
  deriving DecidableEq

/-- JS truthiness of such a value. -/
def jsTruthy : JSVal → Bool
  | JSVal.undef => false
  | JSVal.nullv => false
  | JSVal.boolean b => b
  | JSVal.num n => n != 0
  | JSVal.str s => s != ""

/-- typeof v === "number". -/
def jsIsNumber : JSVal → Bool
  | JSVal.num _ => true
  | _ => false

/-- typeof v === "string". -/
def jsIsString : JSVal → Bool
  | JSVal.str _ => true
  | _ => false

/-- v < bound, reached only after the typeof check has passed. -/
def jsNumLt : JSVal → Int → Bool
  | JSVal.num n, bound => n < bound
  | _, _ => false

/-- v > bound, reached only after the typeof check has passed. -/
def jsNumGt : JSVal → Int → Bool
  | JSVal.num n, bound => n > bound
  | _, _ => false

/-- Validation performed by the /twitter/search handler (part_006 lines
86-100).  The destructuring default maxResults = 10 applies only when the
field is absent (undefined).  none models a 400 rejection; some v means
the handler proceeds to call agent.searchTwitter(query, v). -/
def searchRequestValidation (query maxResultsRaw : JSVal) : Option JSVal :=
  let maxResults := if maxResultsRaw = JSVal.undef then JSVal.num 10 else maxResultsRaw
  if !jsTruthy query || !jsIsString query then none
  else if jsTruthy maxResults &&
      (!jsIsNumber maxResults || jsNumLt maxResults 1 || jsNumGt maxResults 50) then
    none
  else some maxResults

/-! ### A small program logic for AgentM -/

/-- The monadic bind of AgentM is bindM. -/
theorem agentBind_eq {α β : Type} (x : AgentM α) (f : α → AgentM β) :
    x >>= f = bindM x f := rfl

/-- The monadic pure of AgentM is pureM. -/
theorem agentPure_eq {α : Type} (a : α) : (pure a : AgentM α) = pureM a := rfl

/-- Inversion of a successful bind. -/
theorem bindM_ok {α β : Type} {x : AgentM α} {f : α → AgentM β} {s s2 : AgentSt}
    {b : β} (h : bindM x f s = (Except.ok b, s2)) :
    ∃ a s1, x s = (Except.ok a, s1) ∧ f a s1 = (Except.ok b, s2) := by
  unfold bindM at h
  rcases hx : x s with ⟨r, s1⟩
  rw [hx] at h
  cases r with
  | error e => exact absurd h (by simp)
  | ok a => exact ⟨a, s1, rfl, h⟩

/-- Inversion of a successful try/catch. -/
theorem tryCatchM_ok {α : Type} {body handler : AgentM α} {s s2 : AgentSt}
    {a : α} (h : tryCatchM body handler s = (Except.ok a, s2)) :
    body s = (Except.ok a, s2) ∨
      ∃ s1, body s = (Except.error (), s1) ∧ handler s1 = (Except.ok a, s2) := by
  unfold tryCatchM at h
  rcases hb : body s with ⟨r, s1⟩
  rw [hb] at h
  cases r with
  | error e =>
    cases e
    exact Or.inr ⟨s1, rfl, by simpa using h⟩
  | ok b =>
    exact Or.inl (by simpa using h)

/-- Inversion of a successful pure. -/
theorem pureM_ok {α : Type} {a b : α} {s s2 : AgentSt}
    (h : pureM a s = (Except.ok b, s2)) : a = b ∧ s = s2 := by
  simpa [pureM] using h

/-! ### Character-level facts about the JS case maps -/

/-- A prefix check implies character containment. -/
theorem isPrefixOf_mem : ∀ {l1 l2 : List Char}, l1.isPrefixOf l2 = true →
    ∀ c ∈ l1, c ∈ l2 := by
  intro l1
  induction l1 with
  | nil => intro l2 _ c hc; exact absurd hc (by simp)
  | cons a as ih =>
    intro l2 h c hc
    cases l2 with
    | nil => exact absurd h (by simp [List.isPrefixOf])
    | cons b bs =>
      simp only [List.isPrefixOf, Bool.and_eq_true, beq_iff_eq] at h
      rcases List.mem_cons.mp hc with rfl | hmem
      · exact List.mem_cons.mpr (Or.inl h.1)
      · exact List.mem_cons.mpr (Or.inr (ih h.2 c hmem))

/-- A contiguous-occurrence check implies character containment. -/
theorem listContainsSeq_mem : ∀ {hay needle : List Char},
    listContainsSeq hay needle = true → ∀ c ∈ needle, c ∈ hay := by
  intro hay
  induction hay with
  | nil =>
    intro needle h c hc
    simp only [listContainsSeq, List.isEmpty_iff] at h
    subst h
    exact absurd hc (by simp)
  | cons x rest ih =>
    intro needle h c hc
    simp only [listContainsSeq, Bool.or_eq_true] at h
    rcases h with h | h
    · exact isPrefixOf_mem h c hc
    · exact List.mem_cons.mpr (Or.inr (ih h c hc))

/-- The basic-latin upper-case map never produces a lower-case letter. -/
theorem toUpper_not_lowercase (c : Char) :
    ¬ (97 ≤ (Char.toUpper c).toNat ∧ (Char.toUpper c).toNat ≤ 122) := by
  unfold Char.toUpper
  by_cases h : Char.toNat c ≥ 97 ∧ Char.toNat c ≤ 122
  · rw [if_pos h]
    obtain ⟨h1, h2⟩ := h
    set n := Char.toNat c with hn
    interval_cases n <;> decide
  · rw [if_neg h]
    exact fun hc => h ⟨hc.1, hc.2⟩

/-- No character of an upper-cased string is a lower-case basic-latin
letter. -/
theorem jsToUpperStr_no_lowercase (s : String) (c : Char)
    (hc : c ∈ (jsToUpperStr s).data) :
    ¬ (97 ≤ c.toNat ∧ c.toNat ≤ 122) := by
  simp only [jsToUpperStr, List.mem_map] at hc
  obtain ⟨c0, -, rfl⟩ := hc
  exact toUpper_not_lowercase c0

/-! ### Structural facts about the classifier -/

/-- The classification fold is a filterMap. -/
theorem classifyNews_eq_filterMap (toCheck : List String) (tweets : List Tweet)
    (now : Int) (parseDate : String → Int) :
    classifyNews toCheck tweets now parseDate
      = tweets.filterMap (classifyNewsItem toCheck now parseDate) := by
  have haux : ∀ (ts : List Tweet) (acc : List BreakingNewsItem),
      ts.foldl (fun results tweet =>
        match classifyNewsItem toCheck now parseDate tweet with
        | some item => results ++ [item]
        | none => results) acc
        = acc ++ ts.filterMap (classifyNewsItem toCheck now parseDate) := by
    intro ts
    induction ts with
    | nil => intro acc; simp
    | cons t rest ih =>
      intro acc
      simp only [List.foldl_cons, List.filterMap_cons]
      cases h : classifyNewsItem toCheck now parseDate t with
      | none => simpa using ih acc
      | some item => simp [ih, h]
  simpa [classifyNews] using haux tweets []

/-- Each harvested tweet contributes at most one news item. -/
theorem classifyNews_length_le (toCheck : List String) (tweets : List Tweet)
    (now : Int) (parseDate : String → Int) :
    (classifyNews toCheck tweets now parseDate).length ≤ tweets.length := by
  rw [classifyNews_eq_filterMap]
  exact List.length_filterMap_le _ _

/-- Every emitted symbol was found among the checked symbols. -/
theorem classifyNews_symbol_mem (toCheck : List String) (tweets : List Tweet)
    (now : Int) (parseDate : String → Int) (item : BreakingNewsItem)
    (hmem : item ∈ classifyNews toCheck tweets now parseDate) :
    item.symbol ∈ toCheck ∧
      ∃ t : Tweet,
        (containsSubstr (jsToUpperStr t.text) ("$" ++ item.symbol) ||
          containsSubstr (jsToUpperStr t.text)
            (" " ++ item.symbol ++ " ")) = true := by
  rw [classifyNews_eq_filterMap] at hmem
  obtain ⟨t, -, hcl⟩ := List.mem_filterMap.mp hmem
  unfold classifyNewsItem at hcl
  by_cases hage : (now - parseDate t.created_at : Int) > maxNewsAgeMs
  · rw [if_pos hage] at hcl
    exact absurd hcl (by simp)
  · rw [if_neg hage] at hcl
    cases hmatch : newsSymbolMatch toCheck t.text with
    | none => rw [hmatch] at hcl; exact absurd hcl (by simp)
    | some sym =>
      rw [hmatch] at hcl
      by_cases hacct : isNewsAccount t.author = true
      · simp only [hacct, if_true] at hcl
        have hsym : item.symbol = sym := by
          have h2 := Option.some.inj hcl
          rw [← h2]
        unfold newsSymbolMatch at hmatch
        have hfind := List.find?_some hmatch
        have hmemCheck := List.mem_of_find?_eq_some hmatch
        rw [hsym]
        exact ⟨hmemCheck, t, hfind⟩
      · simp only [hacct, if_false] at hcl
        exact absurd hcl (by simp)

/-! ### C7: the breaking-news time window -/

/-- C7: for a harvested item, classification discards it whenever its age
exceeds 30 minutes regardless of any symbol or source match; when it
mentions a checked symbol, comes from an allow-listed account and is at
most 30 minutes old, it is emitted with the headline truncated to at most
200 characters and is_breaking holding exactly when the age is under 10
minutes. -/
theorem breaking_news_item_filtering (toCheck : List String) (t : Tweet)
    (now : Int) (parseDate : String → Int) :
    (maxNewsAgeMs < now - parseDate t.created_at →
        classifyNews toCheck [t] now parseDate = []) ∧
    (∀ sym, newsSymbolMatch toCheck t.text = some sym →
        isNewsAccount t.author = true →
        now - parseDate t.created_at ≤ maxNewsAgeMs →
        ∃ item, classifyNews toCheck [t] now parseDate = [item] ∧
          item.symbol = sym ∧ item.author = t.author ∧
          item.headline.length ≤ 200 ∧
          (item.is_breaking = true ↔
            now - parseDate t.created_at < breakingThresholdMs)) := by
  constructor
  · intro hage
    simp only [classifyNews_eq_filterMap, List.filterMap_cons, List.filterMap_nil]
    unfold classifyNewsItem
    rw [if_pos hage]
  · intro sym hmatch hacct hage
    refine ⟨⟨sym, jsSlice t.text 200, t.author,
        jsMathRoundDiv (now - parseDate t.created_at) 60000,
        decide (now - parseDate t.created_at < breakingThresholdMs)⟩,
      ?_, rfl, rfl, ?_, ?_⟩
    · simp only [classifyNews_eq_filterMap, List.filterMap_cons, List.filterMap_nil]
      unfold classifyNewsItem
      rw [if_neg (by omega : ¬ now - parseDate t.created_at > maxNewsAgeMs), hmatch]
      simp [hacct]
    · show (List.take 200 t.text.data).length ≤ 200
      exact List.length_take_le 200 t.text.data
    · simp

/-- Witness for C7: a 4-minute-old matching item from FirstSquawk is
breaking; a 35-minute-old one is discarded. -/
theorem breaking_news_item_filtering_witness :
    (∃ item,
      classifyNews ["AAPL"]
        [⟨"id1", "BREAKING $AAPL beats estimates", "t0", "FirstSquawk", 0, 0, 0⟩]
        240000 (fun _ => 0) = [item] ∧
      item.is_breaking = true) ∧
    classifyNews ["AAPL"]
      [⟨"id1", "BREAKING $AAPL beats estimates", "t0", "FirstSquawk", 0, 0, 0⟩]
      2100000 (fun _ => 0) = [] := by
  constructor
  · obtain ⟨item, hitem, -, -, -, hbrk⟩ :=
      (breaking_news_item_filtering ["AAPL"]
        ⟨"id1", "BREAKING $AAPL beats estimates", "t0", "FirstSquawk", 0, 0, 0⟩
        240000 (fun _ => 0)).2 "AAPL" (by decide) (by decide) (by decide)
    exact ⟨item, hitem, hbrk.mpr (by decide)⟩
  · exact (breaking_news_item_filtering ["AAPL"]
      ⟨"id1", "BREAKING $AAPL beats estimates", "t0", "FirstSquawk", 0, 0, 0⟩
      2100000 (fun _ => 0)).1 (by decide)

/-! ### C3: the /twitter/search validation slip -/

/-- C3: the claim says any maxResults outside 1..50 is rejected before a
harvest is attempted, and in particular maxResults = 0; but 0 is falsy, so
the guard maxResults && (...) is skipped entirely and the handler proceeds
to harvest with maxResults = 0, contradicting its own 400 message
"maxResults must be a number between 1 and 50". -/
theorem zero_maxResults_reaches_harvest :
    searchRequestValidation (JSVal.str "AAPL") (JSVal.num 0)
        = some (JSVal.num 0) ∧
    ¬ (1 ≤ (0 : Int) ∧ (0 : Int) ≤ 50) := by
  exact ⟨rfl, by decide⟩

/-! ### Hoare-style predicates over AgentM computations -/

/-- Every normal return of m satisfies P. -/
def OkPost {α : Type} (m : AgentM α) (P : α → Prop) : Prop :=
  ∀ s a s2, m s = (Except.ok a, s2) → P a

/-- m never raises. -/
def NeverErr {α : Type} (m : AgentM α) : Prop :=
  ∀ s, ∃ a s2, m s = (Except.ok a, s2)

/-- m leaves the tracked screenshot list untouched, on all exits. -/
def KeepsShots {α : Type} (m : AgentM α) : Prop :=
  ∀ s r s2, m s = (r, s2) → s2.shots = s.shots

/-- The cleanup invariant: every recorded artifact has been handed to
unlink or is still tracked for cleanup. -/
def InvRec (s : AgentSt) : Prop :=
  ∀ p, p ∈ s.recorded → p ∈ s.deleted ∨ p ∈ s.shots

/-- m preserves the cleanup invariant, on all exits. -/
def PreservesInv {α : Type} (m : AgentM α) : Prop :=
  ∀ s r s2, m s = (r, s2) → InvRec s → InvRec s2

/-- Every normal return of m leaves an empty tracked screenshot list. -/
def OkShotsNil {α : Type} (m : AgentM α) : Prop :=
  ∀ s a s2, m s = (Except.ok a, s2) → s2.shots = []

theorem okPost_pureM {α : Type} (a : α) (P : α → Prop) (h : P a) :
    OkPost (pureM a) P := by
  intro s b s2 hm
  obtain ⟨rfl, -⟩ := pureM_ok hm
  exact h

theorem okPost_bindM {α β : Type} {x : AgentM α} {f : α → AgentM β}
    {P : β → Prop} (hf : ∀ a, OkPost (f a) P) : OkPost (bindM x f) P := by
  intro s b s2 hm
  obtain ⟨a, s1, -, h2⟩ := bindM_ok hm
  exact hf a s1 b s2 h2

theorem okPost_bindM_post {α β : Type} {x : AgentM α} {f : α → AgentM β}
    {P : β → Prop} (Q : α → Prop) (hx : OkPost x Q)
    (hf : ∀ a, Q a → OkPost (f a) P) : OkPost (bindM x f) P := by
  intro s b s2 hm
  obtain ⟨a, s1, h1, h2⟩ := bindM_ok hm
  exact hf a (hx s a s1 h1) s1 b s2 h2

theorem okPost_tryCatchM {α : Type} {body handler : AgentM α} {P : α → Prop}
    (hb : OkPost body P) (hh : OkPost handler P) :
    OkPost (tryCatchM body handler) P := by
  intro s a s2 hm
  rcases tryCatchM_ok hm with h | ⟨s1, -, h⟩
  · exact hb s a s2 h
  · exact hh s1 a s2 h

theorem neverErr_pureM {α : Type} (a : α) : NeverErr (pureM a) :=
  fun s => ⟨a, s, rfl⟩

theorem neverErr_tryCatchM {α : Type} {body handler : AgentM α}
    (hh : NeverErr handler) : NeverErr (tryCatchM body handler) := by
  intro s
  unfold tryCatchM
  rcases hb : body s with ⟨r, s1⟩
  cases r with
  | ok a => exact ⟨a, s1, rfl⟩
  | error e =>
    obtain ⟨a, s2, hh2⟩ := hh s1
    exact ⟨a, s2, hh2⟩

theorem neverErr_bindM {α β : Type} {x : AgentM α} {f : α → AgentM β}
    (hx : NeverErr x) (hf : ∀ a, NeverErr (f a)) : NeverErr (bindM x f) := by
  intro s
  obtain ⟨a, s1, h1⟩ := hx s
  obtain ⟨b, s2, h2⟩ := hf a s1
  exact ⟨b, s2, by unfold bindM; rw [h1]; exact h2⟩

theorem keepsShots_pureM {α : Type} (a : α) : KeepsShots (pureM a) := by
  intro s r s2 h
  obtain ⟨-, h2⟩ : (Except.ok a : Except Unit α) = r ∧ s = s2 := by
    simpa [pureM] using h
  rw [← h2]

theorem keepsShots_bindM {α β : Type} {x : AgentM α} {f : α → AgentM β}
    (hx : KeepsShots x) (hf : ∀ a, KeepsShots (f a)) :
    KeepsShots (bindM x f) := by
  intro s r s2 hm
  unfold bindM at hm
  rcases hx1 : x s with ⟨r1, s1⟩
  rw [hx1] at hm
  cases r1 with
  | error e =>
    obtain ⟨-, h2⟩ : (Except.error e : Except Unit β) = r ∧ s1 = s2 := by
      simpa using hm
    rw [← h2]
    exact hx s (Except.error e) s1 hx1
  | ok a =>
    have := hf a s1 r s2 hm
    rw [this]
    exact hx s (Except.ok a) s1 hx1

theorem keepsShots_tryCatchM {α : Type} {body handler : AgentM α}
    (hb : KeepsShots body) (hh : KeepsShots handler) :
    KeepsShots (tryCatchM body handler) := by
  intro s r s2 hm
  unfold tryCatchM at hm
  rcases hb1 : body s with ⟨r1, s1⟩
  rw [hb1] at hm
  cases r1 with
  | error e =>
    have h2 := hh s1 r s2 hm
    rw [h2]
    exact hb s (Except.error e) s1 hb1
  | ok a =>
    obtain ⟨-, h2⟩ : (Except.ok a : Except Unit α) = r ∧ s1 = s2 := by
      simpa using hm
    rw [← h2]
    exact hb s (Except.ok a) s1 hb1

theorem preservesInv_pureM {α : Type} (a : α) : PreservesInv (pureM a) := by
  intro s r s2 h hi
  obtain ⟨-, h2⟩ : (Except.ok a : Except Unit α) = r ∧ s = s2 := by
    simpa [pureM] using h
  rw [← h2]
  exact hi

theorem preservesInv_bindM {α β : Type} {x : AgentM α} {f : α → AgentM β}
    (hx : PreservesInv x) (hf : ∀ a, PreservesInv (f a)) :
    PreservesInv (bindM x f) := by
  intro s r s2 hm hi
  unfold bindM at hm
  rcases hx1 : x s with ⟨r1, s1⟩
  rw [hx1] at hm
  cases r1 with
  | error e =>
    obtain ⟨-, h2⟩ : (Except.error e : Except Unit β) = r ∧ s1 = s2 := by
      simpa using hm
    rw [← h2]
    exact hx s (Except.error e) s1 hx1 hi
  | ok a =>
    exact hf a s1 r s2 hm (hx s (Except.ok a) s1 hx1 hi)

theorem preservesInv_tryCatchM {α : Type} {body handler : AgentM α}
    (hb : PreservesInv body) (hh : PreservesInv handler) :
    PreservesInv (tryCatchM body handler) := by
  intro s r s2 hm hi
  unfold tryCatchM at hm
  rcases hb1 : body s with ⟨r1, s1⟩
  rw [hb1] at hm
  cases r1 with
  | error e => exact hh s1 r s2 hm (hb s (Except.error e) s1 hb1 hi)
  | ok a =>
    obtain ⟨-, h2⟩ : (Except.ok a : Except Unit α) = r ∧ s1 = s2 := by
      simpa using hm
    rw [← h2]
    exact hb s (Except.ok a) s1 hb1 hi

theorem okShotsNil_bindM {α β : Type} {x : AgentM α} {f : α → AgentM β}
    (hf : ∀ a, OkShotsNil (f a)) : OkShotsNil (bindM x f) := by
  intro s b s2 hm
  obtain ⟨a, s1, -, h2⟩ := bindM_ok hm
  exact hf a s1 b s2 h2

theorem okShotsNil_tryCatchM {α : Type} {body handler : AgentM α}
    (hb : OkShotsNil body) (hh : OkShotsNil handler) :
    OkShotsNil (tryCatchM body handler) := by
  intro s a s2 hm
  rcases tryCatchM_ok hm with h | ⟨s1, -, h⟩
  · exact hb s a s2 h
  · exact hh s1 a s2 h

/-- After a cleanup, any shot-preserving continuation ends with an empty
tracked list. -/
theorem okShotsNil_cleanup_bind {α : Type} {f : Unit → AgentM α}
    (hf : ∀ a, KeepsShots (f a)) : OkShotsNil (bindM cleanupScreenshotsM f) := by
  intro s a s2 hm
  obtain ⟨u, s1, h1, h2⟩ := bindM_ok hm
  have hs1 : s1.shots = [] := by
    obtain ⟨-, h3⟩ : (Except.ok () : Except Unit Unit) = Except.ok u ∧
        ({ s with deleted := s.deleted ++ s.shots, shots := [] } : AgentSt) = s1 := by
      simpa [cleanupScreenshotsM] using h1
    rw [← h3]
  rw [hf u s1 (Except.ok a) s2 h2, hs1]

/-! ### Per-primitive facts -/

theorem keepsShots_throwJs {α : Type} : KeepsShots (throwJs : AgentM α) := by
  intro s r s2 h
  cases h
  rfl

theorem keepsShots_openUrl (env : Env) (url : String) :
    KeepsShots (openUrl env url) := by
  intro s r s2 h
  unfold openUrl at h
  cases h
  rfl

theorem keepsShots_verifyResultsM (env : Env) : KeepsShots (verifyResultsM env) := by
  intro s r s2 h
  unfold verifyResultsM at h
  cases h
  rfl

theorem keepsShots_extractFromScreenshot (env : Env) :
    KeepsShots (extractFromScreenshot env) := by
  intro s r s2 h
  unfold extractFromScreenshot at h
  cases h
  rfl

theorem keepsShots_scrollPage (env : Env) : KeepsShots (scrollPage env) := by
  intro s r s2 h
  unfold scrollPage at h
  cases h
  rfl

theorem keepsShots_snapshotPage (env : Env) : KeepsShots (snapshotPage env) := by
  intro s r s2 h
  unfold snapshotPage at h
  cases henv : env.snapshotRes with
  | none => rw [henv] at h; cases h; rfl
  | some els => rw [henv] at h; cases h; rfl

theorem keepsShots_switchTabM (env : Env) : KeepsShots (switchTabM env) := by
  intro s r s2 h
  unfold switchTabM at h
  cases h
  rfl

theorem keepsShots_getCurrentUrlM (env : Env) :
    KeepsShots (getCurrentUrlM env) := by
  intro s r s2 h
  unfold getCurrentUrlM at h
  cases henv : env.currentUrl with
  | none => rw [henv] at h; cases h; rfl
  | some u => rw [henv] at h; cases h; rfl

theorem keepsShots_listTabsM (env : Env) : KeepsShots (listTabsM env) := by
  intro s r s2 h
  unfold listTabsM at h
  cases henv : env.listTabs with
  | none => rw [henv] at h; cases h; rfl
  | some tabs => rw [henv] at h; cases h; rfl

/-- On a raised screenshot the path list is untouched (the crash branch
never pushes). -/
theorem takeScreenshot_err_shots (env : Env) (s s2 : AgentSt) (e : Unit)
    (h : takeScreenshot env s = (Except.error e, s2)) : s2.shots = s.shots := by
  unfold takeScreenshot at h
  cases henv : env.shotAt s.shotIdx with
  | crash => rw [henv] at h; cases h; rfl
  | ok p =>
    rw [henv] at h
    cases p with
    | none => exact absurd h (by simp)
    | some q => exact absurd h (by simp)

theorem preservesInv_throwJs {α : Type} : PreservesInv (throwJs : AgentM α) := by
  intro s r s2 h hi
  cases h
  exact hi

theorem preservesInv_openUrl (env : Env) (url : String) :
    PreservesInv (openUrl env url) := by
  intro s r s2 h hi
  unfold openUrl at h
  cases h
  exact hi

theorem preservesInv_verifyResultsM (env : Env) :
    PreservesInv (verifyResultsM env) := by
  intro s r s2 h hi
  unfold verifyResultsM at h
  cases h
  exact hi

theorem preservesInv_extractFromScreenshot (env : Env) :
    PreservesInv (extractFromScreenshot env) := by
  intro s r s2 h hi
  unfold extractFromScreenshot at h
  cases h
  exact hi

theorem preservesInv_scrollPage (env : Env) : PreservesInv (scrollPage env) := by
  intro s r s2 h hi
  unfold scrollPage at h
  cases h
  exact hi

theorem preservesInv_snapshotPage (env : Env) :
    PreservesInv (snapshotPage env) := by
  intro s r s2 h hi
  unfold snapshotPage at h
  cases henv : env.snapshotRes with
  | none => rw [henv] at h; cases h; exact hi
  | some els => rw [henv] at h; cases h; exact hi

theorem preservesInv_switchTabM (env : Env) : PreservesInv (switchTabM env) := by
  intro s r s2 h hi
  unfold switchTabM at h
  cases h
  exact hi

theorem preservesInv_getCurrentUrlM (env : Env) :
    PreservesInv (getCurrentUrlM env) := by
  intro s r s2 h hi
  unfold getCurrentUrlM at h
  cases henv : env.currentUrl with
  | none => rw [henv] at h; cases h; exact hi
  | some u => rw [henv] at h; cases h; exact hi

theorem preservesInv_listTabsM (env : Env) : PreservesInv (listTabsM env) := by
  intro s r s2 h hi
  unfold listTabsM at h
  cases henv : env.listTabs with
  | none => rw [henv] at h; cases h; exact hi
  | some tabs => rw [henv] at h; cases h; exact hi

theorem preservesInv_takeScreenshot (env : Env) :
    PreservesInv (takeScreenshot env) := by
  intro s r s2 h hi
  unfold takeScreenshot at h
  cases henv : env.shotAt s.shotIdx with
  | crash => rw [henv] at h; cases h; exact hi
  | ok p =>
    rw [henv] at h
    cases p with
    | none => cases h; exact hi
    | some q =>
      cases h
      intro p hp
      simp only [List.mem_append, List.mem_singleton] at hp
      rcases hp with hp | rfl
      · rcases hi p hp with hd | hs
        · exact Or.inl hd
        · exact Or.inr (by simp [hs])
      · exact Or.inr (by simp)

theorem preservesInv_cleanupScreenshotsM : PreservesInv cleanupScreenshotsM := by
  intro s r s2 h hi
  unfold cleanupScreenshotsM at h
  cases h
  intro p hp
  rcases hi p hp with hd | hs
  · exact Or.inl (by simp [hd])
  · exact Or.inl (by simp [hs])

/-! ### Composite facts: the cleanup invariant is preserved everywhere -/

theorem preservesInv_fetchIteration (env : Env) :
    PreservesInv (fetchIteration env) := by
  unfold fetchIteration
  apply preservesInv_tryCatchM
  · apply preservesInv_bindM (preservesInv_takeScreenshot env)
    intro _
    apply preservesInv_bindM (preservesInv_extractFromScreenshot env)
    intro r
    exact preservesInv_pureM _
  · exact preservesInv_pureM _

theorem preservesInv_verifyLoop (env : Env) :
    ∀ n, PreservesInv (verifyLoop env n) := by
  intro n
  induction n with
  | zero => exact preservesInv_pureM _
  | succ k ih =>
    show PreservesInv (verifyLoop env (k + 1))
    unfold verifyLoop
    apply preservesInv_bindM (preservesInv_verifyResultsM env)
    intro verify
    by_cases hv : verify = true
    · rw [if_pos hv]
      exact preservesInv_pureM _
    · rw [if_neg hv]
      by_cases hk : k > 0
      · rw [if_pos hk]
        apply preservesInv_bindM (preservesInv_takeScreenshot env)
        intro _
        exact ih
      · rw [if_neg hk]
        apply preservesInv_bindM (preservesInv_pureM _)
        intro _
        exact ih

theorem preservesInv_repeatScroll (env : Env) :
    ∀ n, PreservesInv (repeatScroll env n) := by
  intro n
  induction n with
  | zero => exact preservesInv_pureM _
  | succ k ih =>
    show PreservesInv (repeatScroll env (k + 1))
    unfold repeatScroll
    apply preservesInv_bindM (preservesInv_scrollPage env)
    intro _
    exact ih

theorem preservesInv_extractionLoop (env : Env) (maxResults : Nat) :
    ∀ fuel st, PreservesInv (extractionLoop env maxResults fuel st) := by
  intro fuel
  induction fuel with
  | zero => intro st; exact preservesInv_pureM _
  | succ k ih =>
    intro st
    show PreservesInv (extractionLoop env maxResults (k + 1) st)
    unfold extractionLoop
    by_cases hg : st.allTweets.length < maxResults ∧ st.scrollAttempts < 50
    · rw [if_pos hg]
      apply preservesInv_bindM (preservesInv_fetchIteration env)
      intro out
      have htail : ∀ st1 : HarvestLoopState,
          PreservesInv (bindM (pureM st1) (fun y =>
            if y.allTweets.length < maxResults then do
              scrollPage env
              extractionLoop env maxResults k
                { y with scrollAttempts := y.scrollAttempts + 1 }
            else pure y)) := by
        intro st1
        apply preservesInv_bindM (preservesInv_pureM _)
        intro y
        by_cases h2 : y.allTweets.length < maxResults
        · rw [if_pos h2]
          apply preservesInv_bindM (preservesInv_scrollPage env)
          intro _
          exact ih _
        · rw [if_neg h2]
          exact preservesInv_pureM _
      by_cases hr : needsAggressiveRecovery (mergeIteration maxResults out st) = true
      · rw [if_pos hr]
        apply preservesInv_bindM (preservesInv_scrollPage env)
        intro _
        exact htail _
      · rw [if_neg hr]
        exact htail _
    · rw [if_neg hg]
      exact preservesInv_pureM _

theorem preservesInv_rescanLoop (env : Env) (maxResults : Nat) :
    ∀ n st, PreservesInv (rescanLoop env maxResults n st) := by
  intro n
  induction n with
  | zero => intro st; exact preservesInv_pureM _
  | succ k ih =>
    intro st
    show PreservesInv (rescanLoop env maxResults (k + 1) st)
    unfold rescanLoop
    by_cases hg : st.allTweets.length < maxResults
    · simp only [hg, if_true]
      apply preservesInv_bindM (preservesInv_takeScreenshot env)
      intro _
      apply preservesInv_bindM (preservesInv_extractFromScreenshot env)
      intro r
      cases r with
      | some tweets =>
        by_cases h2 : ((
            { st with
                allTweets := (addUniqueTweets maxResults tweets st.allTweets st.seen).1,
                seen := (addUniqueTweets maxResults tweets st.allTweets st.seen).2 }
              : HarvestLoopState)).allTweets.length < maxResults
        · simp only [h2, if_true]
          apply preservesInv_bindM (preservesInv_scrollPage env)
          intro _
          exact ih _
        · simp only [h2, if_false]
          exact preservesInv_pureM _
      | none =>
        by_cases h2 : st.allTweets.length < maxResults
        · simp only [h2, if_true]
          apply preservesInv_bindM (preservesInv_scrollPage env)
          intro _
          exact ih _
        · simp only [h2, if_false]
          exact preservesInv_pureM _
    · simp only [hg, if_false]
      exact preservesInv_pureM _

theorem preservesInv_extractTweetsFallback (env : Env) (maxResults : Nat) :
    PreservesInv (extractTweetsFallback env maxResults) := by
  unfold extractTweetsFallback
  apply preservesInv_tryCatchM
  · apply preservesInv_bindM (preservesInv_snapshotPage env)
    intro snap
    exact preservesInv_pureM _
  · exact preservesInv_pureM _

theorem preservesInv_finalExtractionPath (env : Env) (maxResults : Nat) :
    PreservesInv (finalExtractionPath env maxResults) := by
  unfold finalExtractionPath
  apply preservesInv_bindM (preservesInv_takeScreenshot env)
  intro _
  apply preservesInv_bindM (preservesInv_extractFromScreenshot env)
  intro r
  cases r with
  | some tweets =>
    by_cases ht : tweets.length > 0
    · simp only [ht, if_true]
      apply preservesInv_bindM preservesInv_cleanupScreenshotsM
      intro _
      exact preservesInv_pureM _
    · simp only [ht, if_false]
      apply preservesInv_bindM (preservesInv_extractTweetsFallback env maxResults)
      intro fb
      apply preservesInv_bindM preservesInv_cleanupScreenshotsM
      intro _
      by_cases hf : fb.length > 0
      · simp only [hf, if_true]
        exact preservesInv_pureM _
      · simp only [hf, if_false]
        exact preservesInv_pureM _
  | none =>
    apply preservesInv_bindM (preservesInv_extractTweetsFallback env maxResults)
    intro fb
    apply preservesInv_bindM preservesInv_cleanupScreenshotsM
    intro _
    by_cases hf : fb.length > 0
    · simp only [hf, if_true]
      exact preservesInv_pureM _
    · simp only [hf, if_false]
      exact preservesInv_pureM _

theorem preservesInv_preVerify (env : Env) (verifyCheck : Bool) :
    PreservesInv (preVerify env verifyCheck) := by
  unfold preVerify
  by_cases hv : ¬ verifyCheck = true
  · rw [if_pos hv]
    apply preservesInv_bindM (preservesInv_takeScreenshot env)
    intro _
    apply preservesInv_bindM (preservesInv_verifyResultsM env)
    intro _
    exact preservesInv_pureM _
  · rw [if_neg hv]
    exact preservesInv_pureM _

theorem preservesInv_rescanPhase (env : Env) (maxResults : Nat)
    (loopSt : HarvestLoopState) :
    PreservesInv (rescanPhase env maxResults loopSt) := by
  unfold rescanPhase
  by_cases hg : loopSt.allTweets.length < maxResults ∧ loopSt.scrollAttempts < 50
  · rw [if_pos hg]
    apply preservesInv_bindM (preservesInv_scrollPage env)
    intro _
    exact preservesInv_rescanLoop env maxResults 3 _
  · rw [if_neg hg]
    exact preservesInv_pureM _

theorem preservesInv_searchBody (env : Env) (query : String) (maxResults : Nat) :
    PreservesInv (searchBody env query maxResults) := by
  unfold searchBody
  apply preservesInv_bindM (preservesInv_openUrl env _)
  intro _
  apply preservesInv_bindM (preservesInv_takeScreenshot env)
  intro _
  apply preservesInv_bindM (preservesInv_verifyLoop env 8)
  intro _
  apply preservesInv_bindM (preservesInv_repeatScroll env _)
  intro _
  apply preservesInv_bindM (preservesInv_repeatScroll env 10)
  intro _
  apply preservesInv_bindM (preservesInv_takeScreenshot env)
  intro _
  apply preservesInv_bindM (preservesInv_verifyResultsM env)
  intro verifyCheck
  apply preservesInv_bindM (preservesInv_preVerify env verifyCheck)
  intro _
  apply preservesInv_bindM (preservesInv_extractionLoop env maxResults 51 _)
  intro loopSt
  apply preservesInv_bindM (preservesInv_rescanPhase env maxResults loopSt)
  intro rescanSt
  apply preservesInv_bindM preservesInv_cleanupScreenshotsM
  intro _
  by_cases hz : (rescanSt.allTweets.take maxResults).length = 0
  · rw [if_pos hz]
    exact preservesInv_finalExtractionPath env maxResults
  · rw [if_neg hz]
    apply preservesInv_bindM preservesInv_cleanupScreenshotsM
    intro _
    exact preservesInv_pureM _

theorem preservesInv_initAgent (env : Env) : PreservesInv (initAgent env) := by
  unfold initAgent
  by_cases hc : env.connected = true
  · rw [if_pos hc]
    apply preservesInv_bindM
    · apply preservesInv_tryCatchM
      · apply preservesInv_bindM (preservesInv_listTabsM env)
        intro tabs
        cases tabs.find? (fun tab =>
            containsSubstr tab.url "twitter.com" ||
            containsSubstr tab.url "x.com") with
        | some tab =>
          apply preservesInv_bindM (preservesInv_switchTabM env)
          intro _
          apply preservesInv_bindM (preservesInv_getCurrentUrlM env)
          intro currentUrl
          by_cases hu : ¬ containsSubstr currentUrl "/home" = true
          · rw [if_pos hu]
            exact preservesInv_openUrl env "https://twitter.com/home"
          · rw [if_neg hu]
            exact preservesInv_pureM _
        | none => exact preservesInv_openUrl env "https://twitter.com/home"
      · exact preservesInv_openUrl env "https://twitter.com/home"
    · intro _
      apply preservesInv_bindM (preservesInv_takeScreenshot env)
      intro _
      exact preservesInv_pureM _
  · rw [if_neg hc]
    exact preservesInv_throwJs

theorem preservesInv_maybeInit (env : Env) (initialized : Bool) :
    PreservesInv (maybeInit env initialized) := by
  unfold maybeInit
  by_cases hb : ¬ initialized = true
  · rw [if_pos hb]
    exact preservesInv_initAgent env
  · rw [if_neg hb]
    exact preservesInv_pureM _

theorem preservesInv_searchTwitterAgent (env : Env) (initialized : Bool)
    (query : String) (maxResults : Nat) :
    PreservesInv (searchTwitterAgent env initialized query maxResults) := by
  unfold searchTwitterAgent
  apply preservesInv_bindM (preservesInv_maybeInit env initialized)
  intro _
  apply preservesInv_tryCatchM (preservesInv_searchBody env query maxResults)
  apply preservesInv_bindM preservesInv_cleanupScreenshotsM
  intro _
  apply preservesInv_tryCatchM (preservesInv_extractTweetsFallback env maxResults)
  exact preservesInv_pureM _

/-! ### Composite facts: shots tracking -/

/-- Inversion of a failing bind. -/
theorem bindM_err {α β : Type} {x : AgentM α} {f : α → AgentM β} {s s2 : AgentSt}
    {e : Unit} (h : bindM x f s = (Except.error e, s2)) :
    x s = (Except.error e, s2) ∨
      ∃ a s1, x s = (Except.ok a, s1) ∧ f a s1 = (Except.error e, s2) := by
  unfold bindM at h
  rcases hx : x s with ⟨r, s1⟩
  rw [hx] at h
  cases r with
  | error e2 =>
    cases e
    cases e2
    exact Or.inl (by simpa using h)
  | ok a => exact Or.inr ⟨a, s1, rfl, h⟩

/-- pureM never raises. -/
theorem pureM_err {α : Type} {a : α} {s s2 : AgentSt} {e : Unit}
    (h : pureM a s = (Except.error e, s2)) : False := by
  simp [pureM] at h

theorem neverErr_cleanupScreenshotsM : NeverErr cleanupScreenshotsM := by
  intro s
  exact ⟨(), _, rfl⟩

theorem keepsShots_extractTweetsFallback (env : Env) (maxResults : Nat) :
    KeepsShots (extractTweetsFallback env maxResults) := by
  unfold extractTweetsFallback
  apply keepsShots_tryCatchM
  · apply keepsShots_bindM (keepsShots_snapshotPage env)
    intro snap
    exact keepsShots_pureM _
  · exact keepsShots_pureM _

/-- The catch handler of searchTwitter: cleanup then guarded fallback. -/
theorem okShotsNil_searchCatch (env : Env) (maxResults : Nat) :
    OkShotsNil (bindM cleanupScreenshotsM (fun _ =>
      tryCatchM (extractTweetsFallback env maxResults) (pureM []))) := by
  apply okShotsNil_cleanup_bind
  intro _
  apply keepsShots_tryCatchM (keepsShots_extractTweetsFallback env maxResults)
  exact keepsShots_pureM _

theorem neverErr_searchCatch (env : Env) (maxResults : Nat) :
    NeverErr (bindM cleanupScreenshotsM (fun _ =>
      tryCatchM (extractTweetsFallback env maxResults) (pureM []))) := by
  apply neverErr_bindM neverErr_cleanupScreenshotsM
  intro _
  exact neverErr_tryCatchM (neverErr_pureM [])

theorem okShotsNil_finalExtractionPath (env : Env) (maxResults : Nat) :
    OkShotsNil (finalExtractionPath env maxResults) := by
  unfold finalExtractionPath
  apply okShotsNil_bindM
  intro _
  apply okShotsNil_bindM
  intro r
  cases r with
  | some tweets =>
    by_cases ht : tweets.length > 0
    · simp only [ht, if_true]
      apply okShotsNil_cleanup_bind
      intro _
      exact keepsShots_pureM _
    · simp only [ht, if_false]
      apply okShotsNil_bindM
      intro fb
      apply okShotsNil_cleanup_bind
      intro _
      by_cases hf : fb.length > 0
      · simp only [hf, if_true]
        exact keepsShots_pureM _
      · simp only [hf, if_false]
        exact keepsShots_pureM _
  | none =>
    apply okShotsNil_bindM
    intro fb
    apply okShotsNil_cleanup_bind
    intro _
    by_cases hf : fb.length > 0
    · simp only [hf, if_true]
      exact keepsShots_pureM _
    · simp only [hf, if_false]
      exact keepsShots_pureM _

theorem okShotsNil_searchBody (env : Env) (query : String) (maxResults : Nat) :
    OkShotsNil (searchBody env query maxResults) := by
  unfold searchBody
  apply okShotsNil_bindM
  intro _
  apply okShotsNil_bindM
  intro _
  apply okShotsNil_bindM
  intro _
  apply okShotsNil_bindM
  intro _
  apply okShotsNil_bindM
  intro _
  apply okShotsNil_bindM
  intro _
  apply okShotsNil_bindM
  intro verifyCheck
  apply okShotsNil_bindM
  intro _
  apply okShotsNil_bindM
  intro loopSt
  apply okShotsNil_bindM
  intro rescanSt
  apply okShotsNil_bindM
  intro _
  by_cases hz : (rescanSt.allTweets.take maxResults).length = 0
  · rw [if_pos hz]
    exact okShotsNil_finalExtractionPath env maxResults
  · rw [if_neg hz]
    apply okShotsNil_cleanup_bind
    intro _
    exact keepsShots_pureM _

/-- The tab-adoption try block of init and its catch both leave the
tracked screenshot list alone. -/
theorem keepsShots_initTabPhase (env : Env) :
    KeepsShots (tryCatchM
      (bindM (listTabsM env) (fun tabs =>
        match tabs.find? (fun tab =>
            containsSubstr tab.url "twitter.com" ||
            containsSubstr tab.url "x.com") with
        | some _twitterTab =>
          bindM (switchTabM env) (fun _ =>
            bindM (getCurrentUrlM env) (fun currentUrl =>
              if ¬ containsSubstr currentUrl "/home" = true then
                openUrl env "https://twitter.com/home"
              else pureM ()))
        | none => openUrl env "https://twitter.com/home"))
      (openUrl env "https://twitter.com/home")) := by
  apply keepsShots_tryCatchM
  · apply keepsShots_bindM (keepsShots_listTabsM env)
    intro tabs
    cases tabs.find? (fun tab =>
        containsSubstr tab.url "twitter.com" ||
        containsSubstr tab.url "x.com") with
    | some tab =>
      apply keepsShots_bindM (keepsShots_switchTabM env)
      intro _
      apply keepsShots_bindM (keepsShots_getCurrentUrlM env)
      intro currentUrl
      by_cases hu : ¬ containsSubstr currentUrl "/home" = true
      · rw [if_pos hu]
        exact keepsShots_openUrl env "https://twitter.com/home"
      · rw [if_neg hu]
        exact keepsShots_pureM _
    | none => exact keepsShots_openUrl env "https://twitter.com/home"
  · exact keepsShots_openUrl env "https://twitter.com/home"

/-- When init raises, it has pushed no screenshot path: every raise site
precedes the single push. -/
theorem initAgent_err_shots (env : Env) (s s2 : AgentSt) (e : Unit)
    (h : initAgent env s = (Except.error e, s2)) : s2.shots = s.shots := by
  unfold initAgent at h
  by_cases hc : env.connected = true
  · rw [if_pos hc] at h
    rcases bindM_err h with h1 | ⟨a, s1, h1, h2⟩
    · exact keepsShots_initTabPhase env s (Except.error e) s2 h1
    · have hs1 : s1.shots = s.shots :=
        keepsShots_initTabPhase env s (Except.ok a) s1 h1
      rcases bindM_err h2 with h3 | ⟨u, s3, h3, h4⟩
      · rw [takeScreenshot_err_shots env s1 s2 e h3]
        exact hs1
      · exact (pureM_err h4).elim
  · rw [if_neg hc] at h
    unfold throwJs at h
    cases h
    rfl

/-! ### Result-length facts -/

theorem toTweetAux_length (env : Env) :
    ∀ (i : Nat) (cs : List Candidate), (toTweetAux env i cs).length = cs.length := by
  intro i cs
  induction cs generalizing i with
  | nil => rfl
  | cons c rest ih => simp [toTweetAux, ih]

theorem fallbackTweetAux_length (env : Env) :
    ∀ (i : Nat) (els : List SnapElement),
      (fallbackTweetAux env i els).length = els.length := by
  intro i els
  induction els generalizing i with
  | nil => rfl
  | cons el rest ih => simp [fallbackTweetAux, ih]

theorem okPost_len_extractTweetsFallback (env : Env) (maxResults : Nat) :
    OkPost (extractTweetsFallback env maxResults)
      (fun l => l.length ≤ maxResults) := by
  unfold extractTweetsFallback
  apply okPost_tryCatchM
  · apply okPost_bindM
    intro snap
    apply okPost_pureM
    rw [fallbackTweetAux_length]
    simp only [List.length_take]
    omega
  · apply okPost_pureM
    simp

theorem okPost_len_zeroTail (env : Env) (maxResults : Nat) :
    OkPost (bindM (extractTweetsFallback env maxResults)
      (fun fb => bindM cleanupScreenshotsM
        (fun _ => if fb.length > 0 then pureM fb else pureM
          ([] : List Tweet))))
      (fun l => l.length ≤ maxResults) := by
  intro s l s2 h
  obtain ⟨fb, s1, h1, h2⟩ := bindM_ok h
  obtain ⟨u, s3, h3, h4⟩ := bindM_ok h2
  have hfb := okPost_len_extractTweetsFallback env maxResults s fb s1 h1
  by_cases hf : fb.length > 0
  · rw [if_pos hf] at h4
    obtain ⟨rfl, -⟩ := pureM_ok h4
    exact hfb
  · rw [if_neg hf] at h4
    obtain ⟨rfl, -⟩ := pureM_ok h4
    simp

theorem okPost_len_finalExtractionPath (env : Env) (maxResults : Nat) :
    OkPost (finalExtractionPath env maxResults)
      (fun l => l.length ≤ maxResults) := by
  unfold finalExtractionPath
  apply okPost_bindM
  intro _
  apply okPost_bindM
  intro r
  cases r with
  | some tweets =>
    by_cases ht : tweets.length > 0
    · simp only [ht, if_true]
      apply okPost_bindM
      intro _
      apply okPost_pureM
      rw [toTweets, toTweetAux_length]
      simp only [List.length_take]
      omega
    · simp only [ht, if_false]
      exact okPost_len_zeroTail env maxResults
  | none =>
    exact okPost_len_zeroTail env maxResults

theorem okPost_len_searchBody (env : Env) (query : String) (maxResults : Nat) :
    OkPost (searchBody env query maxResults)
      (fun l => l.length ≤ maxResults) := by
  unfold searchBody
  apply okPost_bindM
  intro _
  apply okPost_bindM
  intro _
  apply okPost_bindM
  intro _
  apply okPost_bindM
  intro _
  apply okPost_bindM
  intro _
  apply okPost_bindM
  intro _
  apply okPost_bindM
  intro verifyCheck
  apply okPost_bindM
  intro _
  apply okPost_bindM
  intro loopSt
  apply okPost_bindM
  intro rescanSt
  apply okPost_bindM
  intro _
  by_cases hz : (rescanSt.allTweets.take maxResults).length = 0
  · rw [if_pos hz]
    exact okPost_len_finalExtractionPath env maxResults
  · rw [if_neg hz]
    apply okPost_bindM
    intro _
    apply okPost_pureM
    rw [toTweets, toTweetAux_length]
    simp only [List.length_take]
    omega

theorem okPost_len_searchTwitterAgent (env : Env) (initialized : Bool)
    (query : String) (maxResults : Nat) :
    OkPost (searchTwitterAgent env initialized query maxResults)
      (fun l => l.length ≤ maxResults) := by
  unfold searchTwitterAgent
  apply okPost_bindM
  intro _
  apply okPost_tryCatchM (okPost_len_searchBody env query maxResults)
  apply okPost_bindM
  intro _
  apply okPost_tryCatchM (okPost_len_extractTweetsFallback env maxResults)
  apply okPost_pureM
  simp

/-- When the init-on-demand prefix raises, no screenshot was pushed. -/
theorem maybeInit_err_shots (env : Env) (initialized : Bool) (s s2 : AgentSt)
    (e : Unit) (h : maybeInit env initialized s = (Except.error e, s2)) :
    s2.shots = s.shots := by
  unfold maybeInit at h
  by_cases hb : ¬ initialized = true
  · rw [if_pos hb] at h
    exact initAgent_err_shots env s s2 e h
  · rw [if_neg hb] at h
    exact (pureM_err h).elim

/-- The cleanup invariant holds for the fresh per-call state. -/
theorem invRec_initial : InvRec ({ } : AgentSt) := by
  intro p hp
  exact absurd hp (by simp)

/-! ### C8: cleanup on every exit path -/

/-- C8: whatever the environment does and however the call exits - the
normal return, the zero-item early returns, the catch path, or a raise
propagated out of init - the tracked artifact list is empty when the call
completes, and every screenshot path ever recorded during the call has
been handed to deletion. -/
theorem screenshots_cleaned_on_every_exit (env : Env) (initialized : Bool)
    (query : String) (maxResults : Nat) :
    (searchTwitterCall env initialized query maxResults).2.shots = [] ∧
    ∀ p ∈ (searchTwitterCall env initialized query maxResults).2.recorded,
      p ∈ (searchTwitterCall env initialized query maxResults).2.deleted := by
  rcases hcall : searchTwitterCall env initialized query maxResults with ⟨r, s2⟩
  have hinv : InvRec s2 :=
    preservesInv_searchTwitterAgent env initialized query maxResults
      { } r s2 hcall invRec_initial
  have hcall2 : bindM (maybeInit env initialized)
      (fun _ => tryCatchM (searchBody env query maxResults)
        (bindM cleanupScreenshotsM (fun _ =>
          tryCatchM (extractTweetsFallback env maxResults) (pureM []))))
      { } = (r, s2) := hcall
  have hshots : s2.shots = [] := by
    unfold bindM at hcall2
    rcases hmi : maybeInit env initialized { } with ⟨ri, si⟩
    rw [hmi] at hcall2
    cases ri with
    | error e =>
      obtain ⟨-, hs2⟩ : (Except.error e : Except Unit (List Tweet)) = r ∧ si = s2 := by
        simpa using hcall2
      rw [← hs2]
      rw [maybeInit_err_shots env initialized { } si e hmi]
    | ok a =>
      have hcall3 : tryCatchM (searchBody env query maxResults)
          (bindM cleanupScreenshotsM (fun _ =>
            tryCatchM (extractTweetsFallback env maxResults) (pureM [])))
          si = (r, s2) := hcall2
      obtain ⟨l, s3, hok⟩ :=
        @neverErr_tryCatchM (List Tweet) (searchBody env query maxResults) _
          (neverErr_searchCatch env maxResults) si
      rw [hok] at hcall3
      obtain ⟨-, hs2⟩ : (Except.ok l : Except Unit (List Tweet)) = r ∧ s3 = s2 := by
        simpa using hcall3
      rw [← hs2]
      rcases tryCatchM_ok hok with hbody | ⟨s4, -, hcatch⟩
      · exact okShotsNil_searchBody env query maxResults si l s3 hbody
      · exact okShotsNil_searchCatch env maxResults s4 l s3 hcatch
  exact ⟨hshots, fun p hp => by
    rcases hinv p hp with hd | hs
    · exact hd
    · rw [hshots] at hs
      exact absurd hs (by simp)⟩

/-! ### C2: which failures raise -/

/-- C2 (amended): once the agent is initialized, searchTwitter never
raises - every oracle failure, unparseable output, screenshot failure,
navigation trouble or non-convergence inside the search is absorbed and a
(possibly empty) list is returned; a raise can only happen when the call
had to run init first and init itself raised (connectivity check failed,
or the fallback navigation or the init screenshot raised). -/
theorem search_raises_only_from_init (env : Env) (initialized : Bool)
    (query : String) (maxResults : Nat) :
    (initialized = true →
      ∃ l, (searchTwitterCall env initialized query maxResults).1
        = Except.ok l) ∧
    ((searchTwitterCall env initialized query maxResults).1
        = Except.error () →
      initialized = false ∧ (initAgent env { }).1 = Except.error ()) := by
  have hcall2 : searchTwitterCall env initialized query maxResults
      = bindM (maybeInit env initialized)
        (fun _ => tryCatchM (searchBody env query maxResults)
          (bindM cleanupScreenshotsM (fun _ =>
            tryCatchM (extractTweetsFallback env maxResults) (pureM []))))
        { } := rfl
  constructor
  · intro hb
    subst hb
    have hmi : maybeInit env true { } = (Except.ok (), { }) := by
      unfold maybeInit
      rw [if_neg (by simp)]
      rfl
    obtain ⟨l, s3, hok⟩ :=
      @neverErr_tryCatchM (List Tweet) (searchBody env query maxResults) _
        (neverErr_searchCatch env maxResults) ({ } : AgentSt)
    refine ⟨l, ?_⟩
    have hstep : searchTwitterCall env true query maxResults
        = tryCatchM (searchBody env query maxResults)
          (bindM cleanupScreenshotsM (fun _ =>
            tryCatchM (extractTweetsFallback env maxResults) (pureM [])))
          { } := by
      rw [hcall2]
      unfold bindM
      rw [hmi]
    rw [hstep, hok]
  · intro herr
    rw [hcall2] at herr
    unfold bindM at herr
    rcases hmi : maybeInit env initialized { } with ⟨ri, si⟩
    rw [hmi] at herr
    cases ri with
    | ok a =>
      have herr3 : (tryCatchM (searchBody env query maxResults)
          (bindM cleanupScreenshotsM (fun _ =>
            tryCatchM (extractTweetsFallback env maxResults) (pureM [])))
          si).1 = Except.error () := herr
      obtain ⟨l, s3, hok⟩ :=
        @neverErr_tryCatchM (List Tweet) (searchBody env query maxResults) _
          (neverErr_searchCatch env maxResults) si
      rw [hok] at herr3
      exact absurd herr3 (by simp)
    | error e =>
      have hbfalse : initialized = false := by
        by_cases hb : initialized = true
        · subst hb
          exfalso
          apply @pureM_err Unit () ({ } : AgentSt) si e
          have : maybeInit env true { } = pureM () { } := by
            unfold maybeInit
            rw [if_neg (by simp)]
            rfl
          rw [← this, hmi]
        · simpa using hb
      refine ⟨hbfalse, ?_⟩
      subst hbfalse
      have hmi2 : initAgent env { } = (Except.error e, si) := by
        have : maybeInit env false { } = initAgent env { } := by
          unfold maybeInit
          rw [if_pos (by simp)]
        rw [← this, hmi]
      rw [hmi2]

/-! ### Concrete environments for counterexamples and witnesses -/

/-- A snapshot element duplicated in the fallback path. -/
def dupElemC1 : SnapElement := ⟨"article", "Duplicate fallback text body", none⟩

/-- Environment whose first navigation fails: the catch path answers with
the structural fallback, which contains the same article twice. -/
def envC1 : Env :=
  { connected := true, listTabs := some [], switchOk := true,
    currentUrl := some "https://twitter.com/home",
    openAt := fun _ => false,
    shotAt := fun _ => ShotRes.ok none,
    verifyAt := fun _ => false,
    extractAt := fun _ => none,
    scrollAt := fun _ => true,
    snapshotRes := some [dupElemC1, dupElemC1],
    nowMs := 77, nowIso := "2026-02-01T00:00:00Z",
    parseDate := fun _ => 0, encode := fun q => q }

/-- The two identical-text tweets the fallback path returns under envC1. -/
def tweetsC1 : List Tweet :=
  [⟨"fallback_77_0", "Duplicate fallback text body",
    "2026-02-01T00:00:00Z", "unknown", 0, 0, 0⟩,
   ⟨"fallback_77_1", "Duplicate fallback text body",
    "2026-02-01T00:00:00Z", "unknown", 0, 0, 0⟩]

/-- Environment where the browser is reachable (the connectivity check
passes) but the screenshot taken during init raises. -/
def envC2 : Env :=
  { connected := true, listTabs := some [], switchOk := true,
    currentUrl := some "https://twitter.com/home",
    openAt := fun _ => true,
    shotAt := fun _ => ShotRes.crash,
    verifyAt := fun _ => false,
    extractAt := fun _ => none,
    scrollAt := fun _ => true,
    snapshotRes := none,
    nowMs := 0, nowIso := "t",
    parseDate := fun _ => 0, encode := fun q => q }

/-- Environment that records one screenshot and then fails a scroll, so
the catch path runs: one artifact is recorded and must be cleaned. -/
def envC8 : Env :=
  { connected := true, listTabs := some [], switchOk := true,
    currentUrl := some "https://twitter.com/home",
    openAt := fun _ => true,
    shotAt := fun k => ShotRes.ok (some ("shot" ++ toString k)),
    verifyAt := fun _ => true,
    extractAt := fun _ => none,
    scrollAt := fun _ => false,
    snapshotRes := some [],
    nowMs := 99, nowIso := "2026-02-01T00:00:00Z",
    parseDate := fun _ => 99, encode := fun q => q }

/-- Counterexample to C1 as stated: a normal return of searchTwitter (the
structural-fallback path, here after a failed navigation) that contains
two distinct items with the same dedup key; maxResults = 5 lies in
[1, 50]. -/
theorem duplicate_keys_on_fallback_return :
    (searchTwitterCall envC1 true "q" 5).1.toOption = some tweetsC1 ∧
    ¬ ((tweetsC1.map tweetKey).Nodup) ∧
    tweetsC1.length ≤ 5 ∧ 1 ≤ 5 ∧ 5 ≤ 50 := by decide

set_option maxHeartbeats 1000000 in
/-- Counterexample to C2 as stated: the connectivity check passes (the
browser is reachable) yet searchTwitter raises, because the screenshot
taken during initialization fails - a condition the claim says is
absorbed. -/
theorem raise_despite_reachable_browser :
    envC2.connected = true ∧
    (searchTwitterCall envC2 false "q" 5).1 = Except.error () := ⟨rfl, rfl⟩

set_option maxHeartbeats 1000000 in
/-- Witness for C2 (amended): applying the theorem to envC2 where the
call raises shows the raise indeed came from init. -/
theorem search_raises_only_from_init_witness :
    false = false ∧ (initAgent envC2 { }).1 = Except.error () :=
  (search_raises_only_from_init envC2 false "q" 5).2 rfl

set_option maxHeartbeats 1000000 in
/-- Witness for C8 on a concrete run that records a screenshot and then
raises mid-way: the tracked list ends empty and the recorded path was
deleted. -/
theorem screenshots_cleaned_on_every_exit_witness :
    (searchTwitterCall envC8 true "q" 5).2.shots = [] ∧
    "shot0" ∈ (searchTwitterCall envC8 true "q" 5).2.deleted :=
  ⟨(screenshots_cleaned_on_every_exit envC8 true "q" 5).1,
   (screenshots_cleaned_on_every_exit envC8 true "q" 5).2 "shot0" (by decide)⟩

/-! ### The dedup invariant through the loops -/

/-- The dedup part of the session invariant: seen is exactly the list of
dedup keys of the accumulated items, those keys are pairwise distinct,
and the accumulator never exceeds the target. -/
def DedupWF (maxResults : Nat) (st : HarvestLoopState) : Prop :=
  st.seen = st.allTweets.map candKey ∧ st.seen.Nodup ∧
    st.allTweets.length ≤ maxResults

/-- The full loop invariant: the dedup invariant plus the recorded
lastTweetCount agreeing with the item count. -/
def HarvestWF (maxResults : Nat) (st : HarvestLoopState) : Prop :=
  DedupWF maxResults st ∧ st.lastTweetCount = st.allTweets.length

theorem mergeIteration_wf (maxResults : Nat) (out : IterOutcome)
    (st : HarvestLoopState) (hwf : HarvestWF maxResults st)
    (hlt : st.allTweets.length < maxResults) :
    HarvestWF maxResults (mergeIteration maxResults out st) := by
  obtain ⟨⟨hmap, hnodup, hlen⟩, hsync⟩ := hwf
  cases out with
  | screenshotFailed => exact ⟨⟨hmap, hnodup, hlen⟩, hsync⟩
  | extracted r =>
    cases r with
    | none => exact ⟨⟨hmap, hnodup, hlen⟩, hsync⟩
    | some ts =>
      by_cases hts : ts.length > 0
      · have hw := addUniqueTweets_wf maxResults ts st.allTweets st.seen
          hmap hnodup hlt
        by_cases hnew : (addUniqueTweets maxResults ts st.allTweets st.seen).1.length
            - st.allTweets.length > 0
        · have hres : mergeIteration maxResults (IterOutcome.extracted (some ts)) st
              = { st with
                    allTweets := (addUniqueTweets maxResults ts st.allTweets st.seen).1,
                    seen := (addUniqueTweets maxResults ts st.allTweets st.seen).2,
                    consecutiveEmptyScreenshots := 0, stuckCount := 0,
                    lastTweetCount :=
                      (addUniqueTweets maxResults ts st.allTweets st.seen).1.length } := by
            simp only [mergeIteration]
            rw [if_pos hts, if_pos hnew]
          rw [hres]
          exact ⟨⟨hw.1, hw.2.1, hw.2.2⟩, rfl⟩
        · have hres : mergeIteration maxResults (IterOutcome.extracted (some ts)) st
              = { st with
                    allTweets := (addUniqueTweets maxResults ts st.allTweets st.seen).1,
                    seen := (addUniqueTweets maxResults ts st.allTweets st.seen).2,
                    consecutiveEmptyScreenshots := st.consecutiveEmptyScreenshots + 1,
                    stuckCount :=
                      if (addUniqueTweets maxResults ts st.allTweets st.seen).1.length
                          = st.lastTweetCount
                      then st.stuckCount + 1 else 0,
                    lastTweetCount :=
                      (addUniqueTweets maxResults ts st.allTweets st.seen).1.length } := by
            simp only [mergeIteration]
            rw [if_pos hts, if_neg hnew]
          rw [hres]
          exact ⟨⟨hw.1, hw.2.1, hw.2.2⟩, rfl⟩
      · have hres : mergeIteration maxResults (IterOutcome.extracted (some ts)) st
            = { st with
                  consecutiveEmptyScreenshots := st.consecutiveEmptyScreenshots + 1,
                  stuckCount :=
                    if st.allTweets.length = st.lastTweetCount then st.stuckCount + 1
                    else st.stuckCount } := by
          simp only [mergeIteration]
          rw [if_neg hts]
        rw [hres]
        exact ⟨⟨hmap, hnodup, hlen⟩, hsync⟩

theorem applyAggressiveRecovery_wf (maxResults : Nat) (st : HarvestLoopState)
    (hwf : HarvestWF maxResults st) :
    HarvestWF maxResults (applyAggressiveRecovery st) := by
  unfold applyAggressiveRecovery
  by_cases h : needsAggressiveRecovery st = true
  · rw [if_pos h]
    obtain ⟨⟨a, b, c⟩, d⟩ := hwf
    exact ⟨⟨a, b, c⟩, d⟩
  · rw [if_neg h]
    exact hwf

theorem extractionLoop_wf (env : Env) (maxResults : Nat) :
    ∀ (fuel : Nat) (st : HarvestLoopState) (s : AgentSt)
      (st2 : HarvestLoopState) (s2 : AgentSt),
      HarvestWF maxResults st →
      extractionLoop env maxResults fuel st s = (Except.ok st2, s2) →
      HarvestWF maxResults st2 := by
  intro fuel
  induction fuel with
  | zero =>
    intro st s st2 s2 hwf h
    obtain ⟨he, -⟩ := pureM_ok h
    rw [← he]
    exact hwf
  | succ k ih =>
    intro st s st2 s2 hwf h
    rw [show extractionLoop env maxResults (k + 1) st
        = if st.allTweets.length < maxResults ∧ st.scrollAttempts < 50 then do
            let out ← fetchIteration env
            let st1 := mergeIteration maxResults out st
            let st2 ←
              if needsAggressiveRecovery st1 then do
                scrollPage env
                pure (applyAggressiveRecovery st1)
              else pure st1
            if st2.allTweets.length < maxResults then do
              scrollPage env
              extractionLoop env maxResults k
                { st2 with scrollAttempts := st2.scrollAttempts + 1 }
            else pure st2
          else pure st from rfl] at h
    by_cases hg : st.allTweets.length < maxResults ∧ st.scrollAttempts < 50
    · rw [if_pos hg] at h
      obtain ⟨out, s1, h1, h2⟩ := bindM_ok h
      have hwfd : HarvestWF maxResults (mergeIteration maxResults out st) :=
        mergeIteration_wf maxResults out st hwf hg.1
      by_cases hr : needsAggressiveRecovery (mergeIteration maxResults out st) = true
      · rw [if_pos hr] at h2
        obtain ⟨u, s3, h3, h4⟩ := bindM_ok h2
        obtain ⟨y, s4, h5, h6⟩ := bindM_ok h4
        obtain ⟨hy, -⟩ := pureM_ok h5
        beta_reduce at h6
        have hwfy : HarvestWF maxResults y := by
          rw [← hy]
          exact applyAggressiveRecovery_wf maxResults _ hwfd
        by_cases hy2 : y.allTweets.length < maxResults
        · rw [if_pos hy2] at h6
          obtain ⟨u2, s5, h7, h8⟩ := bindM_ok h6
          exact ih { y with scrollAttempts := y.scrollAttempts + 1 } s5 st2 s2
            ⟨⟨hwfy.1.1, hwfy.1.2.1, hwfy.1.2.2⟩, hwfy.2⟩ h8
        · rw [if_neg hy2] at h6
          obtain ⟨hst2, -⟩ := pureM_ok h6
          rw [← hst2]
          exact hwfy
      · rw [if_neg hr] at h2
        obtain ⟨y, s4, h5, h6⟩ := bindM_ok h2
        obtain ⟨hy, -⟩ := pureM_ok h5
        beta_reduce at h6
        have hwfy : HarvestWF maxResults y := by
          rw [← hy]
          exact hwfd
        by_cases hy2 : y.allTweets.length < maxResults
        · rw [if_pos hy2] at h6
          obtain ⟨u2, s5, h7, h8⟩ := bindM_ok h6
          exact ih { y with scrollAttempts := y.scrollAttempts + 1 } s5 st2 s2
            ⟨⟨hwfy.1.1, hwfy.1.2.1, hwfy.1.2.2⟩, hwfy.2⟩ h8
        · rw [if_neg hy2] at h6
          obtain ⟨hst2, -⟩ := pureM_ok h6
          rw [← hst2]
          exact hwfy
    · rw [if_neg hg] at h
      obtain ⟨he, -⟩ := pureM_ok h
      rw [← he]
      exact hwf

theorem rescanLoop_wf (env : Env) (maxResults : Nat) :
    ∀ (n : Nat) (st : HarvestLoopState) (s : AgentSt)
      (st2 : HarvestLoopState) (s2 : AgentSt),
      DedupWF maxResults st →
      rescanLoop env maxResults n st s = (Except.ok st2, s2) →
      DedupWF maxResults st2 := by
  intro n
  induction n with
  | zero =>
    intro st s st2 s2 hwf h
    obtain ⟨he, -⟩ := pureM_ok h
    rw [← he]
    exact hwf
  | succ k ih =>
    intro st s st2 s2 hwf h
    unfold rescanLoop at h
    by_cases hg : st.allTweets.length < maxResults
    · simp only [hg, if_true] at h
      obtain ⟨u, s1, h1, h2⟩ := bindM_ok h
      obtain ⟨r, s3, h3, h4⟩ := bindM_ok h2
      cases r with
      | some tweets =>
        obtain ⟨hmap, hnodup, hlen⟩ := hwf
        have hw := addUniqueTweets_wf maxResults tweets st.allTweets st.seen
          hmap hnodup hg
        have hwf1 : DedupWF maxResults
            ({ st with
                allTweets := (addUniqueTweets maxResults tweets st.allTweets st.seen).1,
                seen := (addUniqueTweets maxResults tweets st.allTweets st.seen).2 }
              : HarvestLoopState) :=
          ⟨hw.1, hw.2.1, hw.2.2⟩
        by_cases h5 : ((
            { st with
                allTweets := (addUniqueTweets maxResults tweets st.allTweets st.seen).1,
                seen := (addUniqueTweets maxResults tweets st.allTweets st.seen).2 }
              : HarvestLoopState)).allTweets.length < maxResults
        · simp only [h5, if_true] at h4
          obtain ⟨u2, s5, h6, h7⟩ := bindM_ok h4
          exact ih _ s5 st2 s2 hwf1 h7
        · simp only [h5, if_false] at h4
          obtain ⟨he, -⟩ := pureM_ok h4
          rw [← he]
          exact hwf1
      | none =>
        by_cases h5 : st.allTweets.length < maxResults
        · simp only [h5, if_true] at h4
          obtain ⟨u2, s5, h6, h7⟩ := bindM_ok h4
          exact ih _ s5 st2 s2 hwf h7
        · simp only [h5, if_false] at h4
          obtain ⟨he, -⟩ := pureM_ok h4
          rw [← he]
          exact hwf
    · simp only [hg, if_false] at h
      obtain ⟨he, -⟩ := pureM_ok h
      rw [← he]
      exact hwf

theorem toTweetAux_keys (env : Env) :
    ∀ (i : Nat) (cs : List Candidate),
      (toTweetAux env i cs).map tweetKey = cs.map candKey := by
  intro i cs
  induction cs generalizing i with
  | nil => rfl
  | cons c rest ih =>
    simp only [toTweetAux, List.map_cons]
    rw [ih]
    rfl

/-- C1 (amended): for every target count in [1,50], every normal return
of searchTwitter has length at most the target; the extraction loop
preserves the session invariant - seenKeys is exactly the list of dedup
keys of the accumulated items, those keys are pairwise distinct, the
accumulator never exceeds the target, and the recorded count stays in
sync - so the tweets built from the loop accumulation have pairwise
distinct dedup keys; the re-scan passes preserve the dedup invariant;
and the invariant holds of the fresh session state. (Pairwise-distinct
keys do NOT hold of the zero-item fallback returns, which bypass the
dedup tracker.) -/
theorem harvest_bounded_and_loop_keys_distinct (maxResults : Nat)
    (_h1 : 1 ≤ maxResults) (_h50 : maxResults ≤ 50) :
    (∀ env initialized query,
      OkPost (searchTwitterAgent env initialized query maxResults)
        (fun l => l.length ≤ maxResults)) ∧
    (∀ env st s st2 s2, HarvestWF maxResults st →
      extractionLoop env maxResults 51 st s = (Except.ok st2, s2) →
      HarvestWF maxResults st2 ∧
        ((toTweets env (st2.allTweets.take maxResults)).map tweetKey).Nodup) ∧
    (∀ env st s st2 s2, DedupWF maxResults st →
      rescanLoop env maxResults 3 st s = (Except.ok st2, s2) →
      DedupWF maxResults st2) ∧
    HarvestWF maxResults { } := by
  refine ⟨?_, ?_, ?_, ?_⟩
  · intro env initialized query
    exact okPost_len_searchTwitterAgent env initialized query maxResults
  · intro env st s st2 s2 hwf h
    have hwf2 := extractionLoop_wf env maxResults 51 st s st2 s2 hwf h
    refine ⟨hwf2, ?_⟩
    obtain ⟨⟨hmap, hnodup, hlen⟩, -⟩ := hwf2
    rw [toTweets, toTweetAux_keys, List.map_take]
    have hN : (st2.allTweets.map candKey).Nodup := hmap ▸ hnodup
    exact (List.take_sublist _ _).nodup hN
  · intro env st s st2 s2 hwf h
    exact rescanLoop_wf env maxResults 3 st s st2 s2 hwf h
  · exact ⟨⟨rfl, List.nodup_nil, Nat.zero_le _⟩, rfl⟩

/-- Instantiation of the harvest bound and loop dedup invariant at
target count 5. -/
theorem harvest_bounded_and_loop_keys_distinct_witness :
    (1 ≤ 5 ∧ 5 ≤ 50) ∧ HarvestWF 5 { } :=
  ⟨⟨by decide, by decide⟩,
    (harvest_bounded_and_loop_keys_distinct 5 (by decide) (by decide)).2.2.2⟩

/-- C9: checkBreakingNews caps the symbols at the first 3, feeds the
OR-cashtag query over them (allow-listed sources, retweets excluded)
to the harvester with target count 5, and classifies the result; hence
every normal return has at most 5 items and every emitted item's symbol
is among the first 3 input symbols. -/
theorem news_capped_and_from_first_three (env : Env) (initialized : Bool)
    (symbols : List String) (news : List BreakingNewsItem)
    (h : (checkBreakingNewsCall env initialized symbols).1 = Except.ok news) :
    news.length ≤ 5 ∧ (∀ item ∈ news, item.symbol ∈ symbols.take 3) ∧
      (symbols.length = 0 → news = []) ∧
      (symbols.length ≠ 0 → ∃ tweets s1,
        searchTwitterAgent env initialized (buildNewsQuery (symbols.take 3)) 5
            ({ } : AgentSt)
          = (Except.ok tweets, s1) ∧
        tweets.length ≤ 5 ∧
        news = classifyNews (symbols.take 3) tweets (env.nowMs : Int)
          env.parseDate) := by
  unfold checkBreakingNewsCall checkBreakingNewsAgent at h
  by_cases hz : symbols.length = 0
  · rw [if_pos hz] at h
    have h2 : Except.ok ([] : List BreakingNewsItem) = Except.ok news := h
    have hnews : news = [] := (Except.ok.inj h2).symm
    subst hnews
    exact ⟨by simp, by simp, fun _ => rfl, fun hne => absurd hz hne⟩
  · rw [if_neg hz] at h
    rcases hrun : (searchTwitterAgent env initialized
        (buildNewsQuery (symbols.take 3)) 5 >>= fun tweets =>
          pure (classifyNews (symbols.take 3) tweets (env.nowMs : Int)
            env.parseDate)) ({ } : AgentSt) with ⟨r1, s2⟩
    rw [hrun] at h
    have hr1 : r1 = Except.ok news := h
    rw [hr1] at hrun
    obtain ⟨tweets, s1, hA, hB⟩ := bindM_ok hrun
    obtain ⟨hcl, -⟩ := pureM_ok hB
    have hlen5 : tweets.length ≤ 5 :=
      okPost_len_searchTwitterAgent env initialized
        (buildNewsQuery (symbols.take 3)) 5 _ tweets s1 hA
    refine ⟨?_, ?_, fun hze => absurd hze hz, fun _ => ⟨tweets, s1, hA, hlen5, hcl.symm⟩⟩
    · rw [← hcl]
      exact le_trans (classifyNews_length_le _ _ _ _) hlen5
    · intro item hmem
      rw [← hcl] at hmem
      exact (classifyNews_symbol_mem _ _ _ _ _ hmem).1

/-- The empty-symbol short circuit: the call returns normally with an
empty news list, which the cap and membership bounds cover. -/
theorem news_capped_and_from_first_three_witness :
    (checkBreakingNewsCall envC2 true []).1
        = Except.ok ([] : List BreakingNewsItem) ∧
      ([] : List BreakingNewsItem).length ≤ 5 :=
  ⟨rfl, (news_capped_and_from_first_three envC2 true [] [] rfl).1⟩

/-- Normal returns of checkBreakingNews are the empty short circuit or a
classification of some harvested batch over the first 3 symbols. -/
theorem checkBreakingNews_ok_cases (env : Env) (initialized : Bool)
    (symbols : List String) (news : List BreakingNewsItem)
    (h : (checkBreakingNewsCall env initialized symbols).1 = Except.ok news) :
    news = [] ∨ ∃ tweets : List Tweet,
      news = classifyNews (symbols.take 3) tweets (env.nowMs : Int)
        env.parseDate := by
  unfold checkBreakingNewsCall checkBreakingNewsAgent at h
  by_cases hz : symbols.length = 0
  · rw [if_pos hz] at h
    have h2 : Except.ok ([] : List BreakingNewsItem) = Except.ok news := h
    exact Or.inl (Except.ok.inj h2).symm
  · rw [if_neg hz] at h
    rcases hrun : (searchTwitterAgent env initialized
        (buildNewsQuery (symbols.take 3)) 5 >>= fun tweets =>
          pure (classifyNews (symbols.take 3) tweets (env.nowMs : Int)
            env.parseDate)) ({ } : AgentSt) with ⟨r1, s2⟩
    rw [hrun] at h
    have hr1 : r1 = Except.ok news := h
    rw [hr1] at hrun
    obtain ⟨tweets, s1, hA, hB⟩ := bindM_ok hrun
    obtain ⟨hcl, -⟩ := pureM_ok hB
    exact Or.inr ⟨tweets, hcl.symm⟩

/-- C10: a requested symbol containing a lowercase letter can never be
emitted by checkBreakingNews: the tweet text is upper-cased before the
containment test while the symbol is compared verbatim, so neither the
cashtag check nor the space-delimited check can succeed for it. -/
theorem lowercase_symbol_never_emitted (env : Env) (initialized : Bool)
    (symbols : List String) (news : List BreakingNewsItem) (sym : String)
    (c : Char) (hc : c ∈ sym.data) (hlo : 97 ≤ c.toNat ∧ c.toNat ≤ 122)
    (h : (checkBreakingNewsCall env initialized symbols).1 = Except.ok news) :
    sym ∉ news.map BreakingNewsItem.symbol := by
  intro hmem
  rw [List.mem_map] at hmem
  obtain ⟨item, hitem, hsymEq⟩ := hmem
  rcases checkBreakingNews_ok_cases env initialized symbols news h with
    hnil | ⟨tweets, hcl⟩
  · rw [hnil] at hitem
    exact absurd hitem (by simp)
  · rw [hcl] at hitem
    obtain ⟨-, t, hmatch⟩ := classifyNews_symbol_mem _ _ _ _ _ hitem
    rw [hsymEq] at hmatch
    rcases (Bool.or_eq_true _ _).mp hmatch with h1 | h1
    · have h1' : listContainsSeq (jsToUpperStr t.text).data
          ("$" ++ sym).data = true := h1
      have hcmem : c ∈ ("$" ++ sym).data := List.mem_append_right _ hc
      have hin := listContainsSeq_mem h1' c hcmem
      exact absurd hlo (jsToUpperStr_no_lowercase _ _ hin)
    · have h1' : listContainsSeq (jsToUpperStr t.text).data
          (" " ++ sym ++ " ").data = true := h1
      have hcmem : c ∈ (" " ++ sym ++ " ").data :=
        List.mem_append_left _ (List.mem_append_right _ hc)
      have hin := listContainsSeq_mem h1' c hcmem
      exact absurd hlo (jsToUpperStr_no_lowercase _ _ hin)

/-- The lowercase-exclusion fact instantiated: the symbol aapl with its
lowercase letter a, at the empty-symbol run that returns normally. -/
theorem lowercase_symbol_never_emitted_witness :
    'a' ∈ "aapl".data ∧ (97 ≤ 'a'.toNat ∧ 'a'.toNat ≤ 122) ∧
      (checkBreakingNewsCall envC8 true []).1
          = Except.ok ([] : List BreakingNewsItem) ∧
      "aapl" ∉ ([] : List BreakingNewsItem).map BreakingNewsItem.symbol :=
  ⟨by decide, by decide, rfl,
    lowercase_symbol_never_emitted envC8 true [] [] "aapl" 'a'
      (by decide) (by decide) rfl⟩
